import Mathlib

set_option maxHeartbeats 1000000
set_option maxRecDepth 4000

/-!
Shallow embedding of the Rock Ridge extension layer (src/src/pyiso/rockridge.py)
and verification of the frozen claims about it.

Conventions used throughout:
- Python byte strings are modelled as `List Nat` with every byte below 256.
- struct.pack of a byte stores the value reduced modulo 256; in all theorems the
  inputs are restricted to the range where CPython would not raise, so the two
  agree on every proved statement.
- fallible Python code (raise paths, AttributeError on None, struct.error on a
  short buffer) is modelled with `Except PyErr`.
- machine integers are plain `Nat` with explicit `% 256` and 32 bit bounds where
  the wire format needs them.
-/

deriving instance DecidableEq for Except

namespace PyIso

/-- Error values raised by the Rock Ridge source; one constructor per distinct
PyIsoException message, plus `structError` for struct.unpack on a short buffer,
`indexError` for indexing past the end of a byte string and `attributeError`
for attribute access on None (CPython raises those itself). -/
inductive PyErr where
  | invalidLength
  | invalidCheckBytes
  | invalidSymlinkFlags
  | symlinkDotLength
  | symlinkContinuationDot
  | symlinkTooLong
  | invalidNMFlags
  | invalidNMName
  | notEnoughTFBytes
  | invalidPadByte
  | notEnoughBytes
  | invalidSPRecord
  | invalidRRVersion
  | unknownSUSP
  | structError
  | indexError
  | attributeError
  | littleBigMismatch
  | entryNotSymlink
  | noChildLink
  | noParentLink
  | childLinkRecordNotFound
  | parentLinkRecordNotFound
  | noChildLinkRecord
  | noExtentAssigned
  deriving DecidableEq, Repr

/-- SU_ENTRY_VERSION from the source. -/
def SU_ENTRY_VERSION : Nat := 1

/-- Normalize one bound of a Python slice `l[a:b]` for a list of length `n`:
negative indices count from the end, out of range indices are clamped. -/
def pyBound (n : Nat) (i : Int) : Nat :=
  if i < 0 then ((n : Int) + i).toNat else min i.toNat n

/-- Python slicing `l[a:b]` with full negative-index semantics. -/
def pySlice (l : List Nat) (a b : Int) : List Nat :=
  (l.take (pyBound l.length b)).drop (pyBound l.length a)

/-- struct.pack of one unsigned 32 bit integer, little endian ("=L" on the x86
hosts the source targets). -/
def pack32le (x : Nat) : List Nat :=
  [x % 256, x / 256 % 256, x / 65536 % 256, x / 16777216 % 256]

/-- Read the little endian 32 bit integer at the head of a byte list; callers
check the available length first, as struct.unpack does. -/
def read32 (l : List Nat) : Nat :=
  l.getD 0 0 + 256 * l.getD 1 0 + 65536 * l.getD 2 0 + 16777216 * l.getD 3 0

/-- Modelled from the spec: swab_32bit lives in utils.py, which is not under
src/; the spec describes it as the byte swap of a 32 bit value. -/
def swab32 (x : Nat) : Nat :=
  x % 256 * 16777216 + x / 256 % 256 * 65536 + x / 65536 % 256 * 256 + x / 16777216 % 256

/-- The two Rock Ridge protocol versions the source accepts; RockRidge.new
compares the version argument against the strings 1.09 and 1.12 and raises
for anything else, so only these two values reach the code modelled here. -/
inductive RRVersion where
  | v109
  | v112
  deriving DecidableEq, Repr

/-- Rock Ridge Sharing Protocol record (RRSPRecord). -/
structure RRSPRecord where
  bytes_to_skip : Nat
  deriving DecidableEq, Repr

def RRSPRecord.length : Nat := 7

def RRSPRecord.record (r : RRSPRecord) : List Nat :=
  [83, 80] ++ [RRSPRecord.length, SU_ENTRY_VERSION, 190, 239, r.bytes_to_skip % 256]

def RRSPRecord.parse (rrstr : List Nat) : Except PyErr RRSPRecord :=
  let s := (rrstr.drop 2).take 5
  if s.length ≠ 5 then .error .structError
  else if s.getD 0 0 ≠ RRSPRecord.length then .error .invalidLength
  else if s.getD 2 0 ≠ 190 ∨ s.getD 3 0 ≠ 239 then .error .invalidCheckBytes
  else .ok ⟨s.getD 4 0⟩

/-- Rock Ridge field-presence record (RRRRRecord). -/
structure RRRRRecord where
  rr_flags : Nat
  deriving DecidableEq, Repr

def RRRRRecord.length : Nat := 5

def RRRRRecord.record (r : RRRRRecord) : List Nat :=
  [82, 82] ++ [RRRRRecord.length, SU_ENTRY_VERSION, r.rr_flags % 256]

def RRRRRecord.parse (rrstr : List Nat) : Except PyErr RRRRRecord :=
  let s := (rrstr.drop 2).take 3
  if s.length ≠ 3 then .error .structError
  else if s.getD 0 0 ≠ RRRRRecord.length then .error .invalidLength
  else .ok ⟨s.getD 2 0⟩

/-- Rock Ridge POSIX file attributes record (RRPXRecord). -/
structure RRPXRecord where
  posix_file_mode : Nat
  posix_file_links : Nat
  posix_user_id : Nat
  posix_group_id : Nat
  posix_serial_number : Nat
  deriving DecidableEq, Repr

def RRPXRecord.length (rr_version : RRVersion) : Nat :=
  match rr_version with
  | .v109 => 36
  | .v112 => 44

/-- RRPXRecord.new: modes are 0o40555, 0o120555 and 0o100444 in the source. -/
def RRPXRecord.newRec (isdir : Bool) (symlink_path : Option (List Nat)) : RRPXRecord :=
  { posix_file_mode := if isdir then 16749 else if symlink_path.isSome then 41325 else 33060
    posix_file_links := 1
    posix_user_id := 0
    posix_group_id := 0
    posix_serial_number := 0 }

/-- RRPXRecord.record: note that the su_len byte is packed from
RRPXRecord.length() with its 1.09 default even when the 1.12 serial number
field is appended, exactly as the source does. -/
def RRPXRecord.record (r : RRPXRecord) (rr_version : RRVersion) : List Nat :=
  [80, 88] ++ [RRPXRecord.length .v109, SU_ENTRY_VERSION]
  ++ pack32le r.posix_file_mode ++ pack32le (swab32 r.posix_file_mode)
  ++ pack32le r.posix_file_links ++ pack32le (swab32 r.posix_file_links)
  ++ pack32le r.posix_user_id ++ pack32le (swab32 r.posix_user_id)
  ++ pack32le r.posix_group_id ++ pack32le (swab32 r.posix_group_id)
  ++ (if rr_version ≠ .v109 then
        pack32le r.posix_serial_number ++ pack32le (swab32 r.posix_serial_number)
      else [])

/-- RRPXRecord.parse: the big endian copies (at offsets 4, 12, 20, 28 and 36
of the body) are unpacked by the source but never compared or stored. -/
def RRPXRecord.parse (rrstr : List Nat) : Except PyErr RRPXRecord :=
  let hdr := (rrstr.drop 2).take 2
  if hdr.length ≠ 2 then .error .structError
  else
    let su := hdr.getD 0 0
    if su = 36 then
      let body := (rrstr.drop 4).take 32
      if body.length ≠ 32 then .error .structError
      else .ok ⟨read32 body, read32 (body.drop 8), read32 (body.drop 16), read32 (body.drop 24), 0⟩
    else if su = 44 then
      let body := (rrstr.drop 4).take 40
      if body.length ≠ 40 then .error .structError
      else .ok ⟨read32 body, read32 (body.drop 8), read32 (body.drop 16), read32 (body.drop 24),
                read32 (body.drop 32)⟩
    else .error .invalidLength

/-- Rock Ridge extensions reference record (RRERRecord). -/
structure RRERRecord where
  ext_id : List Nat
  ext_des : List Nat
  ext_src : List Nat
  deriving DecidableEq, Repr

def RRERRecord.length (ext_id ext_des ext_src : List Nat) : Nat :=
  8 + ext_id.length + ext_des.length + ext_src.length

def RRERRecord.record (r : RRERRecord) : List Nat :=
  [69, 82] ++ [RRERRecord.length r.ext_id r.ext_des r.ext_src % 256, SU_ENTRY_VERSION,
    r.ext_id.length % 256, r.ext_des.length % 256, r.ext_src.length % 256, 1]
  ++ r.ext_id ++ r.ext_des ++ r.ext_src

def RRERRecord.parse (rrstr : List Nat) : Except PyErr RRERRecord :=
  let hdr := (rrstr.drop 2).take 6
  if hdr.length ≠ 6 then .error .structError
  else
    let len_id := hdr.getD 2 0
    let len_des := hdr.getD 3 0
    let len_src := hdr.getD 4 0
    .ok ⟨(rrstr.drop 8).take len_id, (rrstr.drop (8 + len_id)).take len_des,
         (rrstr.drop (8 + len_id + len_des)).take len_src⟩

/-- Rock Ridge extension selector record (RRESRecord). -/
structure RRESRecord where
  extension_sequence : Nat
  deriving DecidableEq, Repr

def RRESRecord.length : Nat := 5

def RRESRecord.record (r : RRESRecord) : List Nat :=
  [69, 83] ++ [RRESRecord.length, SU_ENTRY_VERSION, r.extension_sequence % 256]

def RRESRecord.parse (rrstr : List Nat) : Except PyErr RRESRecord :=
  let s := (rrstr.drop 2).take 3
  if s.length ≠ 3 then .error .structError
  else if s.getD 0 0 ≠ RRESRecord.length then .error .invalidLength
  else .ok ⟨s.getD 2 0⟩

/-- Rock Ridge POSIX device number record (RRPNRecord). -/
structure RRPNRecord where
  dev_t_high : Nat
  dev_t_low : Nat
  deriving DecidableEq, Repr

def RRPNRecord.length : Nat := 20

def RRPNRecord.record (r : RRPNRecord) : List Nat :=
  [80, 78] ++ [RRPNRecord.length, SU_ENTRY_VERSION]
  ++ pack32le r.dev_t_high ++ pack32le (swab32 r.dev_t_high)
  ++ pack32le r.dev_t_low ++ pack32le (swab32 r.dev_t_low)

/-- RRPNRecord.parse: the big endian copies (body offsets 6 and 14) are
unpacked but never compared by the source. -/
def RRPNRecord.parse (rrstr : List Nat) : Except PyErr RRPNRecord :=
  let body := (rrstr.drop 2).take 18
  if body.length ≠ 18 then .error .structError
  else if body.getD 0 0 ≠ RRPNRecord.length then .error .invalidLength
  else .ok ⟨read32 (body.drop 2), read32 (body.drop 10)⟩

/-- Rock Ridge child link record (RRCLRecord). -/
structure RRCLRecord where
  child_log_block_num : Nat
  deriving DecidableEq, Repr

def RRCLRecord.length : Nat := 12

def RRCLRecord.record (r : RRCLRecord) : List Nat :=
  [67, 76] ++ [RRCLRecord.length, SU_ENTRY_VERSION]
  ++ pack32le r.child_log_block_num ++ pack32le (swab32 r.child_log_block_num)

def RRCLRecord.parse (rrstr : List Nat) : Except PyErr RRCLRecord :=
  let body := (rrstr.drop 2).take 10
  if body.length ≠ 10 then .error .structError
  else if body.getD 0 0 ≠ RRCLRecord.length then .error .invalidLength
  else if read32 (body.drop 2) ≠ swab32 (read32 (body.drop 6)) then .error .littleBigMismatch
  else .ok ⟨read32 (body.drop 2)⟩

/-- Rock Ridge parent link record (RRPLRecord). -/
structure RRPLRecord where
  parent_log_block_num : Nat
  deriving DecidableEq, Repr

def RRPLRecord.length : Nat := 12

def RRPLRecord.record (r : RRPLRecord) : List Nat :=
  [80, 76] ++ [RRPLRecord.length, SU_ENTRY_VERSION]
  ++ pack32le r.parent_log_block_num ++ pack32le (swab32 r.parent_log_block_num)

def RRPLRecord.parse (rrstr : List Nat) : Except PyErr RRPLRecord :=
  let body := (rrstr.drop 2).take 10
  if body.length ≠ 10 then .error .structError
  else if body.getD 0 0 ≠ RRPLRecord.length then .error .invalidLength
  else if read32 (body.drop 2) ≠ swab32 (read32 (body.drop 6)) then .error .littleBigMismatch
  else .ok ⟨read32 (body.drop 2)⟩

/-- Rock Ridge sparse file record (RRSFRecord). -/
structure RRSFRecord where
  virtual_file_size_high : Nat
  virtual_file_size_low : Nat
  table_depth : Nat
  deriving DecidableEq, Repr

def RRSFRecord.length : Nat := 21

def RRSFRecord.record (r : RRSFRecord) : List Nat :=
  [83, 70] ++ [RRSFRecord.length, SU_ENTRY_VERSION]
  ++ pack32le r.virtual_file_size_high ++ pack32le (swab32 r.virtual_file_size_high)
  ++ pack32le r.virtual_file_size_low ++ pack32le (swab32 r.virtual_file_size_low)
  ++ [r.table_depth % 256]

/-- RRSFRecord.parse: the big endian copies (body offsets 6 and 14) are
unpacked but never compared by the source. -/
def RRSFRecord.parse (rrstr : List Nat) : Except PyErr RRSFRecord :=
  let body := (rrstr.drop 2).take 19
  if body.length ≠ 19 then .error .structError
  else if body.getD 0 0 ≠ RRSFRecord.length then .error .invalidLength
  else .ok ⟨read32 (body.drop 2), read32 (body.drop 10), body.getD 18 0⟩

/-- Rock Ridge relocated directory record (RRRERecord). -/
structure RRRERecord where
  deriving DecidableEq, Repr

def RRRERecord.length : Nat := 4

def RRRERecord.record (_ : RRRERecord) : List Nat :=
  [82, 69] ++ [RRRERecord.length, SU_ENTRY_VERSION]

def RRRERecord.parse (rrstr : List Nat) : Except PyErr RRRERecord :=
  let s := (rrstr.drop 2).take 2
  if s.length ≠ 2 then .error .structError
  else if s.getD 0 0 ≠ 4 then .error .invalidLength
  else .ok ⟨⟩

/-- Rock Ridge symbolic link record (RRSLRecord). Components are byte lists;
the three special components are the single bytes for dot, dotdot and slash
(46, 46 46, 47). -/
structure RRSLRecord where
  symlink_components : List (List Nat)
  flags : Nat
  deriving DecidableEq, Repr

def RRSLRecord.component_length (symlink_component : List Nat) : Nat :=
  if symlink_component = [46] ∨ symlink_component = [46, 46] ∨ symlink_component = [47] then 2
  else 2 + symlink_component.length

def RRSLRecord.length (symlink_components : List (List Nat)) : Nat :=
  5 + (symlink_components.map RRSLRecord.component_length).sum

def RRSLRecord.current_length (r : RRSLRecord) : Nat :=
  RRSLRecord.length r.symlink_components

/-- The bytes RRSLRecord.record emits for one component: the dot, dotdot and
slash markers become a flag byte with zero length, everything else a plain
entry with its literal bytes. -/
def RRSLRecord.encComp (comp : List Nat) : List Nat :=
  if comp = [46] then [2, 0]
  else if comp = [46, 46] then [4, 0]
  else if comp = [47] then [8, 0]
  else [0, comp.length % 256] ++ comp

def RRSLRecord.record (r : RRSLRecord) : List Nat :=
  [83, 76] ++ [RRSLRecord.length r.symlink_components % 256, SU_ENTRY_VERSION, r.flags % 256]
  ++ (r.symlink_components.map RRSLRecord.encComp).flatten

/-- The accumulation loop shared by RRSLRecord.__str__ and symlink_path: each
component followed by a slash unless the component is itself the slash
marker. -/
def slashTerm (comps : List (List Nat)) : List Nat :=
  (comps.map fun comp => comp ++ if comp = [47] then [] else [47]).flatten

/-- RRSLRecord.__str__: the accumulation loop, then drop the final
character. -/
def RRSLRecord.str (r : RRSLRecord) : List Nat :=
  (slashTerm r.symlink_components).dropLast

/-- The component loop inside RRSLRecord.parse, in buffer-consuming form: the
source indexes the original string with a running cr_offset; here the already
consumed prefix has been dropped, which yields the same slices.  A declared
component length larger than the remaining buffer silently truncates, as a
Python slice does. -/
def slParseLoop (buf : List Nat) (data_len : Nat) (name : List Nat)
    (comps : List (List Nat)) : Except PyErr (List (List Nat)) :=
  if _h : data_len = 0 then .ok comps
  else match buf with
    | cr_flags :: len_cp :: rest =>
      if cr_flags ∉ [0, 1, 2, 4, 8] then .error .invalidSymlinkFlags
      else if (cr_flags.testBit 1 ∨ cr_flags.testBit 2 ∨ cr_flags.testBit 3) ∧ len_cp ≠ 0 then
        .error .symlinkDotLength
      else if (cr_flags.testBit 1 ∨ cr_flags.testBit 2 ∨ cr_flags.testBit 3) ∧ name ≠ [] then
        .error .symlinkContinuationDot
      else
        let name1 := if cr_flags.testBit 1 then name ++ [46]
          else if cr_flags.testBit 2 then name ++ [46, 46]
          else if cr_flags.testBit 3 then name ++ [47]
          else name ++ rest.take len_cp
        let st := if cr_flags.testBit 0 then (name1, comps) else ([], comps ++ [name1])
        slParseLoop (rest.drop len_cp) (data_len - 2 - len_cp) st.1 st.2
    | _ => .error .structError
termination_by data_len
decreasing_by omega

def RRSLRecord.parse (rrstr : List Nat) : Except PyErr RRSLRecord :=
  let hdr := (rrstr.drop 2).take 3
  if hdr.length ≠ 3 then .error .structError
  else
    match slParseLoop (rrstr.drop 5) (hdr.getD 0 0 - 5) [] [] with
    | .error e => .error e
    | .ok comps => .ok ⟨comps, hdr.getD 2 0⟩

/-- Rock Ridge alternate name record (RRNMRecord). -/
structure RRNMRecord where
  posix_name_flags : Nat
  posix_name : List Nat
  deriving DecidableEq, Repr

def RRNMRecord.length (rr_name : List Nat) : Nat := 5 + rr_name.length

def RRNMRecord.record (r : RRNMRecord) : List Nat :=
  [78, 77] ++ [RRNMRecord.length r.posix_name % 256, SU_ENTRY_VERSION, r.posix_name_flags % 256]
  ++ r.posix_name

def RRNMRecord.parse (rrstr : List Nat) : Except PyErr RRNMRecord :=
  let hdr := (rrstr.drop 2).take 3
  if hdr.length ≠ 3 then .error .structError
  else
    let flags := hdr.getD 2 0
    let name_len : Int := (hdr.getD 0 0 : Int) - 5
    if ¬(flags % 8 = 0 ∨ flags % 8 = 1 ∨ flags % 8 = 2 ∨ flags % 8 = 4) then .error .invalidNMFlags
    else if name_len ≠ 0 then
      if flags.testBit 1 ∨ flags.testBit 2 ∨ flags.testBit 5 then .error .invalidNMName
      else .ok ⟨flags, pySlice rrstr 5 (5 + name_len)⟩
    else .ok ⟨flags, []⟩

/-- Modelled from the spec: dates.py is not under src/.  The spec describes the
date codec as encoding a timestamp into exactly 7 bytes (directory record
style) or 17 bytes (volume descriptor style); a timestamp is modelled by its
encoded byte form, so record returns the bytes and parse stores them. -/
structure RRDate where
  payload : List Nat
  deriving DecidableEq, Repr

/-- Modelled from the spec: DirectoryRecordDate.new and VolumeDescriptorDate.new
record the current time; the all zero payload of the right width stands in for
the clock reading, since no claim depends on the concrete time bytes. -/
def RRDate.newDate (tflen : Nat) : RRDate := ⟨List.replicate tflen 0⟩

/-- Rock Ridge time stamp record (RRTFRecord). -/
structure RRTFRecord where
  time_flags : Nat
  creation_time : Option RRDate
  access_time : Option RRDate
  modification_time : Option RRDate
  attribute_change_time : Option RRDate
  backup_time : Option RRDate
  expiration_time : Option RRDate
  effective_time : Option RRDate
  deriving DecidableEq, Repr

def RRTFRecord.length (time_flags : Nat) : Nat :=
  5 + (if time_flags.testBit 7 then 17 else 7) * ((List.range 7).countP fun i => time_flags.testBit i)

def RRTFRecord.new (time_flags : Nat) : RRTFRecord :=
  let tflen := if time_flags.testBit 7 then 17 else 7
  { time_flags := time_flags
    creation_time := if time_flags.testBit 0 then some (RRDate.newDate tflen) else none
    access_time := if time_flags.testBit 1 then some (RRDate.newDate tflen) else none
    modification_time := if time_flags.testBit 2 then some (RRDate.newDate tflen) else none
    attribute_change_time := if time_flags.testBit 3 then some (RRDate.newDate tflen) else none
    backup_time := if time_flags.testBit 4 then some (RRDate.newDate tflen) else none
    expiration_time := if time_flags.testBit 5 then some (RRDate.newDate tflen) else none
    effective_time := if time_flags.testBit 6 then some (RRDate.newDate tflen) else none }

/-- The bytes contributed by one optional timestamp in RRTFRecord.record. -/
def encDate (o : Option RRDate) : List Nat :=
  match o with
  | some d => d.payload
  | none => []

def RRTFRecord.record (r : RRTFRecord) : List Nat :=
  [84, 70] ++ [RRTFRecord.length r.time_flags % 256, SU_ENTRY_VERSION, r.time_flags % 256]
  ++ encDate r.creation_time ++ encDate r.access_time ++ encDate r.modification_time
  ++ encDate r.attribute_change_time ++ encDate r.backup_time ++ encDate r.expiration_time
  ++ encDate r.effective_time

/-- One optional timestamp slice in RRTFRecord.parse: if the flag bit is set,
take tflen bytes and advance, mirroring rrstr[tmp : tmp + tflen] with the
consumed prefix dropped. -/
def tfChunk (flag : Bool) (tflen : Nat) (l : List Nat) : Option RRDate × List Nat :=
  if flag then (some ⟨l.take tflen⟩, l.drop tflen) else (none, l)

/-- The per timestamp width selected by the high flag bit. -/
def RRTFRecord.tflenOf (v : RRTFRecord) : Nat :=
  if v.time_flags.testBit 7 then 17 else 7

/-- Whether an optional timestamp, if present, has a payload of width n. -/
def dateLenOk (n : Nat) : Option RRDate → Bool
  | none => true
  | some d => d.payload.length == n

/-- Well formedness of a TF value: the flag byte is a byte, each of the seven
optional timestamps is present exactly when its flag bit is set, and every
present timestamp carries a payload of the width the high flag bit selects.
This is the validity that RRTFRecord.new establishes and parse preserves. -/
def RRTFRecord.wfb (v : RRTFRecord) : Bool :=
  decide (v.time_flags < 256)
  && (v.time_flags.testBit 0 == v.creation_time.isSome)
  && dateLenOk v.tflenOf v.creation_time
  && (v.time_flags.testBit 1 == v.access_time.isSome)
  && dateLenOk v.tflenOf v.access_time
  && (v.time_flags.testBit 2 == v.modification_time.isSome)
  && dateLenOk v.tflenOf v.modification_time
  && (v.time_flags.testBit 3 == v.attribute_change_time.isSome)
  && dateLenOk v.tflenOf v.attribute_change_time
  && (v.time_flags.testBit 4 == v.backup_time.isSome)
  && dateLenOk v.tflenOf v.backup_time
  && (v.time_flags.testBit 5 == v.expiration_time.isSome)
  && dateLenOk v.tflenOf v.expiration_time
  && (v.time_flags.testBit 6 == v.effective_time.isSome)
  && dateLenOk v.tflenOf v.effective_time

def RRTFRecord.parse (rrstr : List Nat) : Except PyErr RRTFRecord :=
  let hdr := (rrstr.drop 2).take 3
  if hdr.length ≠ 3 then .error .structError
  else
    let su := hdr.getD 0 0
    let flags := hdr.getD 2 0
    if su < 5 then .error .notEnoughTFBytes
    else
      let tflen := if flags.testBit 7 then 17 else 7
      match tfChunk (flags.testBit 0) tflen (rrstr.drop 5) with
      | (c0, r1) =>
      match tfChunk (flags.testBit 1) tflen r1 with
      | (c1, r2) =>
      match tfChunk (flags.testBit 2) tflen r2 with
      | (c2, r3) =>
      match tfChunk (flags.testBit 3) tflen r3 with
      | (c3, r4) =>
      match tfChunk (flags.testBit 4) tflen r4 with
      | (c4, r5) =>
      match tfChunk (flags.testBit 5) tflen r5 with
      | (c5, r6) =>
      match tfChunk (flags.testBit 6) tflen r6 with
      | (c6, _) =>
      .ok ⟨flags, c0, c1, c2, c3, c4, c5, c6⟩

/-- The bag of non-continuation records held by RockRidgeBase: at most one of
each singleton type plus the ordered list of SL records.  Both the primary
entry and a continuation carry one of these. -/
structure RRFlatBag where
  sp_record : Option RRSPRecord
  rr_record : Option RRRRRecord
  px_record : Option RRPXRecord
  er_record : Option RRERRecord
  es_record : Option RRESRecord
  pn_record : Option RRPNRecord
  sl_records : List RRSLRecord
  nm_record : Option RRNMRecord
  cl_record : Option RRCLRecord
  pl_record : Option RRPLRecord
  tf_record : Option RRTFRecord
  sf_record : Option RRSFRecord
  re_record : Option RRRERecord
  deriving DecidableEq, Repr

def emptyFlatBag : RRFlatBag :=
  ⟨none, none, none, none, none, none, [], none, none, none, none, none, none⟩

/-- RockRidgeContinuation: the record bag that lives in a spilled extent, plus
its location bookkeeping.  The source allows a parsed continuation to carry a
further CE record; none of the claims exercises that nesting, so the model
keeps continuations one level deep. -/
structure RRContinuation where
  bag : RRFlatBag
  orig_extent_loc : Option Nat
  new_extent_loc : Option Nat
  continue_offset : Nat
  continue_length : Nat
  deriving DecidableEq, Repr

def RRContinuation.extent_location (c : RRContinuation) : Except PyErr Nat :=
  match c.new_extent_loc, c.orig_extent_loc with
  | none, none => .error .noExtentAssigned
  | none, some o => .ok o
  | some n, _ => .ok n

/-- Rock Ridge continuation entry record (RRCERecord). -/
structure RRCERecord where
  continuation_entry : RRContinuation
  deriving DecidableEq, Repr

def RRCERecord.length : Nat := 28

def RRCERecord.record (r : RRCERecord) : Except PyErr (List Nat) :=
  match r.continuation_entry.extent_location with
  | .error e => .error e
  | .ok loc =>
    .ok ([67, 69] ++ [RRCERecord.length, SU_ENTRY_VERSION]
      ++ pack32le loc ++ pack32le (swab32 loc)
      ++ pack32le r.continuation_entry.continue_offset
      ++ pack32le (swab32 r.continuation_entry.continue_offset)
      ++ pack32le r.continuation_entry.continue_length
      ++ pack32le (swab32 r.continuation_entry.continue_length))

/-- RRCERecord.parse: only the little endian copies (body offsets 2, 10 and 18)
are kept; the big endian copies are unpacked but never compared. -/
def RRCERecord.parse (rrstr : List Nat) : Except PyErr RRCERecord :=
  let body := (rrstr.drop 2).take 26
  if body.length ≠ 26 then .error .structError
  else if body.getD 0 0 ≠ RRCERecord.length then .error .invalidLength
  else .ok ⟨⟨emptyFlatBag, some (read32 (body.drop 2)), none,
             read32 (body.drop 10), read32 (body.drop 18)⟩⟩

/-- RockRidgeBase.record: serialize the present records.  The source appends
the pieces to a growing string in this fixed order; note that it calls
px_record.record() without a version argument, so the 1.09 default applies,
and that es, pn and sf records are never emitted. -/
def recordBase (bag : RRFlatBag) (ce : Option RRCERecord) : Except PyErr (List Nat) :=
  let ret : List Nat := []
  let ret := ret ++ (match bag.sp_record with | some r => r.record | none => [])
  let ret := ret ++ (match bag.rr_record with | some r => r.record | none => [])
  let ret := ret ++ (match bag.nm_record with | some r => r.record | none => [])
  let ret := ret ++ (match bag.px_record with | some r => r.record RRVersion.v109 | none => [])
  let ret := ret ++ (bag.sl_records.map RRSLRecord.record).flatten
  let ret := ret ++ (match bag.tf_record with | some r => r.record | none => [])
  let ret := ret ++ (match bag.cl_record with | some r => r.record | none => [])
  let ret := ret ++ (match bag.pl_record with | some r => r.record | none => [])
  let ret := ret ++ (match bag.re_record with | some r => r.record | none => [])
  match ce with
  | some c =>
    match c.record with
    | .error e => .error e
    | .ok ceBytes =>
      .ok (ret ++ ceBytes ++ (match bag.er_record with | some r => r.record | none => []))
  | none => .ok (ret ++ (match bag.er_record with | some r => r.record | none => []))

/-- The canonical serialization order stated by the spec (section 4.3): SP, RR,
NM, PX, all SL records in list order, TF, CL, PL, RE, CE, ER, with absent
fields contributing nothing.  Defined from the spec text, for comparison with
recordBase. -/
def canonicalPieces (bag : RRFlatBag) (ce : Option RRCERecord) : List (List Nat) :=
  [match bag.sp_record with | some r => r.record | none => []]
  ++ [match bag.rr_record with | some r => r.record | none => []]
  ++ [match bag.nm_record with | some r => r.record | none => []]
  ++ [match bag.px_record with | some r => r.record RRVersion.v109 | none => []]
  ++ bag.sl_records.map RRSLRecord.record
  ++ [match bag.tf_record with | some r => r.record | none => []]
  ++ [match bag.cl_record with | some r => r.record | none => []]
  ++ [match bag.pl_record with | some r => r.record | none => []]
  ++ [match bag.re_record with | some r => r.record | none => []]
  ++ [match ce with
      | some c => (match c.record with | .ok b => b | .error _ => [])
      | none => []]
  ++ [match bag.er_record with | some r => r.record | none => []]

/-- The primary Rock Ridge entry attached to one directory record.  child_link
and parent_link model the non owning references to the relocated directory
records; the external allocator stores there the extent location that
extent_location() of those records will report. -/
structure RockRidgeEntry where
  bag : RRFlatBag
  ce_record : Option RRCERecord
  child_link : Option Nat
  parent_link : Option Nat
  deriving DecidableEq, Repr

def RockRidgeEntry.record (e : RockRidgeEntry) : Except PyErr (List Nat) :=
  recordBase e.bag e.ce_record

/-- The SL records of the continuation entry, or the empty list when the entry
has no continuation. -/
def contSLRecords (e : RockRidgeEntry) : List RRSLRecord :=
  match e.ce_record with
  | some c => c.continuation_entry.bag.sl_records
  | none => []

/-- The NM record of the continuation entry, if any. -/
def contNMRecord (e : RockRidgeEntry) : Option RRNMRecord :=
  match e.ce_record with
  | some c => c.continuation_entry.bag.nm_record
  | none => none

/-- The CL record of the continuation entry, if any. -/
def contCLRecord (e : RockRidgeEntry) : Option RRCLRecord :=
  match e.ce_record with
  | some c => c.continuation_entry.bag.cl_record
  | none => none

/-- RockRidge.name: concatenate the primary NM content with the continuation
NM content; no raise path exists once the entry is initialized. -/
def RockRidgeEntry.name (e : RockRidgeEntry) : List Nat :=
  (match e.bag.nm_record with | some nm => nm.posix_name | none => [])
  ++ (match contNMRecord e with | some nm => nm.posix_name | none => [])

/-- RockRidge.is_symlink. -/
def RockRidgeEntry.is_symlink (e : RockRidgeEntry) : Bool :=
  ¬e.bag.sl_records.isEmpty ∨ ¬(contSLRecords e).isEmpty

/-- RockRidge.symlink_path: raises unless the primary entry holds at least one
SL record and, when a continuation exists, the continuation holds one too;
then joins the per record reconstructions with slashes and drops the final
character. -/
def RockRidgeEntry.symlink_path (e : RockRidgeEntry) : Except PyErr (List Nat) :=
  if e.bag.sl_records = [] ∨ (e.ce_record.isSome ∧ contSLRecords e = []) then
    .error .entryNotSymlink
  else
    .ok (((e.bag.sl_records ++ contSLRecords e).map fun rec =>
      RRSLRecord.str rec ++ if RRSLRecord.str rec = [47] then [] else [47]).flatten.dropLast)

/-- The join rule stated by the spec (section 4.5): concatenate all primary SL
components, then all continuation SL components, joining with a slash except
after a literal slash component.  Defined from the spec text, for comparison
with symlink_path. -/
def specSymlinkJoin (comps : List (List Nat)) : List Nat :=
  (slashTerm comps).dropLast

/-- RockRidge.has_child_link_record. -/
def RockRidgeEntry.has_child_link_record (e : RockRidgeEntry) : Bool :=
  e.bag.cl_record.isSome ∨ (contCLRecord e).isSome

/-- RockRidge.child_link_block_num. -/
def RockRidgeEntry.child_link_block_num (e : RockRidgeEntry) : Except PyErr Nat :=
  match e.bag.cl_record with
  | some cl => .ok cl.child_log_block_num
  | none =>
    match e.ce_record with
    | some c =>
      match c.continuation_entry.bag.cl_record with
      | some cl => .ok cl.child_log_block_num
      | none => .error .noChildLinkRecord
    | none => .error .noChildLinkRecord

/-- RockRidge.update_child_link: store the extent location of the linked
directory record into whichever CL record exists. -/
def RockRidgeEntry.update_child_link (e : RockRidgeEntry) : Except PyErr RockRidgeEntry :=
  match e.child_link with
  | none => .error .noChildLink
  | some loc =>
    match e.bag.cl_record with
    | some _ => .ok { e with bag := { e.bag with cl_record := some ⟨loc⟩ } }
    | none =>
      match e.ce_record with
      | some c =>
        match c.continuation_entry.bag.cl_record with
        | some _ =>
          .ok { e with ce_record := some ⟨{ c.continuation_entry with
                  bag := { c.continuation_entry.bag with cl_record := some ⟨loc⟩ } }⟩ }
        | none => .error .childLinkRecordNotFound
      | none => .error .childLinkRecordNotFound

/-- Outcome of the RockRidgeBase._parse loop: a populated state, a raised
error, or fuel exhaustion (the fuel indexed model of a loop that may fail to
advance when a record declares su_len 0). -/
inductive ParseOutcome where
  | done : RRFlatBag → Option RRCERecord → ParseOutcome
  | err : PyErr → ParseOutcome
  | outOfFuel : ParseOutcome
  deriving DecidableEq, Repr

/-- One step of the _parse loop, separated from the state updates: either the
loop halts (break or raise), or it dispatches a record of declared length
su_len and applies the given update to the record slots.  The control flow
depends only on the input bytes, the root flag and the cursor, never on the
slots, which is what makes the termination analysis of C9 go through. -/
inductive CtlRes where
  | finish : CtlRes
  | fail : PyErr → CtlRes
  | step : Nat → (RRFlatBag → Option RRCERecord → RRFlatBag × Option RRCERecord) → CtlRes

/-- The body of RockRidgeBase._parse: offset is the cursor into the byte
string, left the count of bytes still accounted for (an Int, since the source
lets it go negative before noticing the truncation on the next iteration). -/
def parseCtl (record : List Nat) (is_first_dir_record_of_root : Bool)
    (offset : Nat) (left : Int) : CtlRes :=
  if left = 0 then .finish
  else if left = 1 then
    match record.get? offset with
    | none => .fail .indexError
    | some b => if b ≠ 0 then .fail .invalidPadByte else .finish
  else if left < 4 then .fail .notEnoughBytes
  else
    match (record.drop offset).take 4 with
    | [t1, t2, su_len, ver] =>
      if ver ≠ SU_ENTRY_VERSION then .fail .invalidRRVersion
      else if t1 = 83 ∧ t2 = 80 then
        if left < 7 ∨ ¬is_first_dir_record_of_root then .fail .invalidSPRecord
        else match RRSPRecord.parse (record.drop offset) with
          | .error e => .fail e
          | .ok v => .step su_len fun bag ce => ({ bag with sp_record := some v }, ce)
      else if t1 = 82 ∧ t2 = 82 then
        match RRRRRecord.parse (record.drop offset) with
        | .error e => .fail e
        | .ok v => .step su_len fun bag ce => ({ bag with rr_record := some v }, ce)
      else if t1 = 67 ∧ t2 = 69 then
        match RRCERecord.parse (record.drop offset) with
        | .error e => .fail e
        | .ok v => .step su_len fun bag _ => (bag, some v)
      else if t1 = 80 ∧ t2 = 88 then
        match RRPXRecord.parse (record.drop offset) with
        | .error e => .fail e
        | .ok v => .step su_len fun bag ce => ({ bag with px_record := some v }, ce)
      else if t1 = 80 ∧ t2 = 68 then
        .step su_len fun bag ce => (bag, ce)
      else if t1 = 83 ∧ t2 = 84 then
        if su_len ≠ 4 then .fail .invalidLength
        else .step su_len fun bag ce => (bag, ce)
      else if t1 = 69 ∧ t2 = 82 then
        match RRERRecord.parse (record.drop offset) with
        | .error e => .fail e
        | .ok v => .step su_len fun bag ce => ({ bag with er_record := some v }, ce)
      else if t1 = 69 ∧ t2 = 83 then
        match RRESRecord.parse (record.drop offset) with
        | .error e => .fail e
        | .ok v => .step su_len fun bag ce => ({ bag with es_record := some v }, ce)
      else if t1 = 80 ∧ t2 = 78 then
        match RRPNRecord.parse (record.drop offset) with
        | .error e => .fail e
        | .ok v => .step su_len fun bag ce => ({ bag with pn_record := some v }, ce)
      else if t1 = 83 ∧ t2 = 76 then
        match RRSLRecord.parse (record.drop offset) with
        | .error e => .fail e
        | .ok v => .step su_len fun bag ce =>
            ({ bag with sl_records := bag.sl_records ++ [v] }, ce)
      else if t1 = 78 ∧ t2 = 77 then
        match RRNMRecord.parse (record.drop offset) with
        | .error e => .fail e
        | .ok v => .step su_len fun bag ce => ({ bag with nm_record := some v }, ce)
      else if t1 = 67 ∧ t2 = 76 then
        match RRCLRecord.parse (record.drop offset) with
        | .error e => .fail e
        | .ok v => .step su_len fun bag ce => ({ bag with cl_record := some v }, ce)
      else if t1 = 80 ∧ t2 = 76 then
        match RRPLRecord.parse (record.drop offset) with
        | .error e => .fail e
        | .ok v => .step su_len fun bag ce => ({ bag with pl_record := some v }, ce)
      else if t1 = 82 ∧ t2 = 69 then
        match RRRERecord.parse (record.drop offset) with
        | .error e => .fail e
        | .ok v => .step su_len fun bag ce => ({ bag with re_record := some v }, ce)
      else if t1 = 84 ∧ t2 = 70 then
        match RRTFRecord.parse (record.drop offset) with
        | .error e => .fail e
        | .ok v => .step su_len fun bag ce => ({ bag with tf_record := some v }, ce)
      else if t1 = 83 ∧ t2 = 70 then
        match RRSFRecord.parse (record.drop offset) with
        | .error e => .fail e
        | .ok v => .step su_len fun bag ce => ({ bag with sf_record := some v }, ce)
      else .fail .unknownSUSP
    | _ => .fail .structError

/-- The _parse loop with explicit fuel: each iteration advances the cursor by
the declared su_len, which may be zero. -/
def parseLoop (record : List Nat) (root : Bool) :
    Nat → RRFlatBag → Option RRCERecord → Nat → Int → ParseOutcome
  | 0, _, _, _, _ => .outOfFuel
  | fuel + 1, bag, ce, offset, left =>
    match parseCtl record root offset left with
    | .finish => .done bag ce
    | .fail e => .err e
    | .step su upd =>
      parseLoop record root fuel (upd bag ce).1 (upd bag ce).2 (offset + su) (left - su)

/-- RockRidgeBase._parse on fresh slots: the cursor starts at bytes_to_skip
while left starts at the full length of the byte string, exactly as in the
source. -/
def parseFuel (record : List Nat) (bytes_to_skip : Nat) (root : Bool) (fuel : Nat) :
    ParseOutcome :=
  parseLoop record root fuel emptyFlatBag none bytes_to_skip (record.length : Int)

/-- The cursor states the _parse while loop actually visits, starting from a
given offset and remaining-byte count: each step advances by the su_len the
dispatched record header declares. -/
inductive ParseReach (record : List Nat) (root : Bool) : Nat → Int → Nat → Int → Prop where
  | refl (offset : Nat) (left : Int) : ParseReach record root offset left offset left
  | step (offset : Nat) (left : Int) (su : Nat)
      (upd : RRFlatBag → Option RRCERecord → RRFlatBag × Option RRCERecord)
      (o : Nat) (l : Int) :
      parseCtl record root offset left = .step su upd →
      ParseReach record root (offset + su) (left - su) o l →
      ParseReach record root offset left o l

/-- Python str.split on the slash byte: always returns at least one piece, and
empty pieces mark leading, trailing or doubled separators. -/
def pySplit : List Nat → List (List Nat)
  | [] => [[]]
  | c :: rest =>
    match pySplit rest with
    | [] => [[c]]
    | h :: t => if c = 47 then [] :: h :: t else (c :: h) :: t

/-- The constants of RockRidge.new.  TF_FLAGS is 0x0e; the three strings are
spelled as byte lists (RRIP_1991A and the two RRIP sentences). -/
def TF_FLAGS : Nat := 14

def EXT_ID : List Nat := [82, 82, 73, 80, 95, 49, 57, 57, 49, 65]

def EXT_DES : List Nat :=
  [84, 72, 69, 32, 82, 79, 67, 75, 32, 82, 73, 68, 71, 69, 32, 73, 78, 84, 69, 82, 67, 72,
   65, 78, 71, 69, 32, 80, 82, 79, 84, 79, 67, 79, 76, 32, 80, 82, 79, 86, 73, 68, 69, 83,
   32, 83, 85, 80, 80, 79, 82, 84, 32, 70, 79, 82, 32, 80, 79, 83, 73, 88, 32, 70, 73, 76,
   69, 32, 83, 89, 83, 84, 69, 77, 32, 83, 69, 77, 65, 78, 84, 73, 67, 83]

def EXT_SRC : List Nat :=
  [80, 76, 69, 65, 83, 69, 32, 67, 79, 78, 84, 65, 67, 84, 32, 68, 73, 83, 67, 32, 80, 85,
   66, 76, 73, 83, 72, 69, 82, 32, 70, 79, 82, 32, 83, 80, 69, 67, 73, 70, 73, 67, 65, 84,
   73, 79, 78, 32, 83, 79, 85, 82, 67, 69, 46, 32, 32, 83, 69, 69, 32, 80, 85, 66, 76, 73,
   83, 72, 69, 82, 32, 73, 68, 69, 78, 84, 73, 70, 73, 69, 82, 32, 73, 78, 32, 80, 82, 73,
   77, 65, 82, 89, 32, 86, 79, 76, 85, 77, 69, 32, 68, 69, 83, 67, 82, 73, 80, 84, 79, 82,
   32, 70, 79, 82, 32, 67, 79, 78, 84, 65, 67, 84, 32, 73, 78, 70, 79, 82, 77, 65, 84, 73,
   79, 78, 46]

/-- The mutable state threaded through RockRidge.new: the inline record slots,
the continuation record slots, whether a CE record was pre-allocated, the
running directory record length (this_dr_len) and the running continuation
length.  slBranch2 instruments whether the mid component symlink split (the
second branch of the SL loop) ever fired. -/
structure NewSt where
  bag : RRFlatBag
  cont : RRFlatBag
  hasCE : Bool
  thisLen : Nat
  contLen : Nat
  slBranch2 : Bool
  deriving DecidableEq, Repr

/-- The placement step RockRidge.new repeats for SP, RR, PX, TF, CL, RE, PL
and ER: place the record inline when it fits in the 254 byte budget, else in
the continuation entry (an AttributeError when none was pre-allocated, as in
the source, where self.ce_record is None). -/
def placeRecord (st : NewSt) (thislen : Nat) (setI setC : RRFlatBag → RRFlatBag) :
    Except PyErr NewSt :=
  if st.thisLen + thislen > 254 then
    if st.hasCE then
      .ok { st with cont := setC st.cont, contLen := st.contLen + thislen }
    else .error .attributeError
  else .ok { st with bag := setI st.bag, thisLen := st.thisLen + thislen }

/-- append_field on the inline RR record, if one was placed: set the presence
bit.  The source only ever updates self.rr_record, so a continuation resident
RR record never receives presence bits. -/
def appendRR (st : NewSt) (bit : Nat) : NewSt :=
  { st with bag := { st.bag with
      rr_record := st.bag.rr_record.map fun r => ⟨r.rr_flags ||| (1 <<< bit)⟩ } }

def stepSP (root : Bool) (st : NewSt) : Except PyErr NewSt :=
  if root then
    placeRecord st RRSPRecord.length (fun b => { b with sp_record := some ⟨0⟩ })
      (fun b => { b with sp_record := some ⟨0⟩ })
  else .ok st

def stepRR (rr_version : RRVersion) (st : NewSt) : Except PyErr NewSt :=
  if rr_version = .v109 then
    placeRecord st RRRRRecord.length (fun b => { b with rr_record := some ⟨0⟩ })
      (fun b => { b with rr_record := some ⟨0⟩ })
  else .ok st

/-- The NM placement including the two way name split.  len_here is
254 - this_dr_len - 5 and may be negative, in which case the Python slices
rr_name[:len_here] and rr_name[len_here:] cut from the end of the name; this
is reproduced by pySlice.  The inline record is marked continued. -/
def stepNM (rr_name : Option (List Nat)) (st : NewSt) : Except PyErr NewSt :=
  match rr_name with
  | none => .ok st
  | some name =>
    if st.thisLen + RRNMRecord.length name > 254 then
      if st.hasCE then
        let len_here : Int := 254 - (st.thisLen : Int) - 5
        let localName := pySlice name 0 len_here
        let contName := pySlice name len_here name.length
        .ok (appendRR { st with
          bag := { st.bag with nm_record := some ⟨1, localName⟩ }
          thisLen := st.thisLen + RRNMRecord.length localName
          cont := { st.cont with nm_record := some ⟨0, contName⟩ }
          contLen := st.contLen + RRNMRecord.length contName } 3)
      else .error .attributeError
    else
      .ok (appendRR { st with
        bag := { st.bag with nm_record := some ⟨0, name⟩ }
        thisLen := st.thisLen + RRNMRecord.length name } 3)

def stepPX (isdir : Bool) (symlink_path : Option (List Nat)) (st : NewSt) :
    Except PyErr NewSt :=
  match placeRecord st (RRPXRecord.length .v109)
      (fun b => { b with px_record := some (RRPXRecord.newRec isdir symlink_path) })
      (fun b => { b with px_record := some (RRPXRecord.newRec isdir symlink_path) }) with
  | .error e => .error e
  | .ok st1 => .ok (appendRR st1 0)

/-- The loop state of the symlink placement: done holds the SL records already
created (in creation order, each already appended to its owning list in the
source), cur the component list of the record still being filled, metaInline
whether meta_record_len currently is the directory record length. -/
structure SLSt where
  done : List RRSLRecord
  cur : List (List Nat)
  metaInline : Bool
  thisLen : Nat
  contLen : Nat
  branch2 : Bool
  deriving DecidableEq, Repr

/-- One iteration of the symlink component loop of RockRidge.new.  The first
branch appends the whole component to the current record; the second splits it
at the byte boundary that fills the record to 255 and starts a continuation
record with the remainder (RRSLRecord.new splits its argument on slashes); the
third starts a continuation record holding the whole component.  The
add_component length guard of the source is kept even though the branch
conditions make it unreachable. -/
def slStep (hasCE : Bool) (s : SLSt) (comp : List Nat) : Except PyErr SLSt :=
  let curLen := RRSLRecord.length s.cur
  if curLen + 2 + comp.length < 255 then
    if curLen + 2 + comp.length > 255 then .error .symlinkTooLong
    else .ok { s with
      cur := s.cur ++ [comp]
      thisLen := if s.metaInline then s.thisLen + RRSLRecord.component_length comp else s.thisLen
      contLen := if s.metaInline then s.contLen else s.contLen + RRSLRecord.component_length comp }
  else if curLen + 2 + 1 < 255 then
    let len_here := 255 - curLen - 2
    let pre := comp.take len_here
    let rest := comp.drop len_here
    if curLen + 2 + pre.length > 255 then .error .symlinkTooLong
    else if hasCE then
      .ok { done := s.done ++ [⟨s.cur ++ [pre], 0⟩]
            cur := pySplit rest
            metaInline := false
            thisLen := if s.metaInline then s.thisLen + RRSLRecord.component_length pre
              else s.thisLen
            contLen := (if s.metaInline then s.contLen
                else s.contLen + RRSLRecord.component_length pre)
              + (5 + RRSLRecord.component_length rest)
            branch2 := true }
    else .error .attributeError
  else
    if hasCE then
      .ok { done := s.done ++ [⟨s.cur, 0⟩]
            cur := pySplit comp
            metaInline := false
            thisLen := s.thisLen
            contLen := s.contLen + (5 + RRSLRecord.component_length comp)
            branch2 := s.branch2 }
    else .error .attributeError

/-- Fold of slStep over the path components. -/
def slRun (hasCE : Bool) (s : SLSt) : List (List Nat) → Except PyErr SLSt
  | [] => .ok s
  | comp :: comps =>
    match slStep hasCE s comp with
    | .error e => .error e
    | .ok s1 => slRun hasCE s1 comps

/-- The SL placement of RockRidge.new: create the first (empty) SL record,
decide whether it lives inline or in the continuation, run the component loop,
store the finished records and set the RR presence bit. -/
def stepSL (symlink_path : Option (List Nat)) (st : NewSt) : Except PyErr NewSt :=
  match symlink_path with
  | none => .ok st
  | some p =>
    let firstInline := st.thisLen + 5 + 2 + 1 < 254
    if ¬firstInline ∧ ¬st.hasCE then .error .attributeError
    else
      let s0 : SLSt :=
        { done := [], cur := [], metaInline := firstInline
          thisLen := if firstInline then st.thisLen + 5 else st.thisLen
          contLen := if firstInline then st.contLen else st.contLen + 5
          branch2 := false }
      Except.bind (slRun st.hasCE s0 (pySplit p)) fun fin =>
        let recs := fin.done ++ [⟨fin.cur, 0⟩]
        .ok (appendRR { st with
          bag := { st.bag with sl_records := if firstInline then recs.take 1 else [] }
          cont := { st.cont with sl_records := if firstInline then recs.drop 1 else recs }
          thisLen := fin.thisLen
          contLen := fin.contLen
          slBranch2 := fin.branch2 } 2)

def stepTF (st : NewSt) : Except PyErr NewSt :=
  match placeRecord st (RRTFRecord.length TF_FLAGS)
      (fun b => { b with tf_record := some (RRTFRecord.new TF_FLAGS) })
      (fun b => { b with tf_record := some (RRTFRecord.new TF_FLAGS) }) with
  | .error e => .error e
  | .ok st1 => .ok (appendRR st1 7)

def stepCL (rr_relocated_child : Bool) (st : NewSt) : Except PyErr NewSt :=
  if rr_relocated_child then
    placeRecord st RRCLRecord.length (fun b => { b with cl_record := some ⟨0⟩ })
      (fun b => { b with cl_record := some ⟨0⟩ })
  else .ok st

def stepRE (rr_relocated : Bool) (st : NewSt) : Except PyErr NewSt :=
  if rr_relocated then
    placeRecord st RRRERecord.length (fun b => { b with re_record := some ⟨⟩ })
      (fun b => { b with re_record := some ⟨⟩ })
  else .ok st

def stepPL (rr_relocated_parent : Bool) (st : NewSt) : Except PyErr NewSt :=
  if rr_relocated_parent then
    placeRecord st RRPLRecord.length (fun b => { b with pl_record := some ⟨0⟩ })
      (fun b => { b with pl_record := some ⟨0⟩ })
  else .ok st

def stepER (root : Bool) (st : NewSt) : Except PyErr NewSt :=
  if root then
    placeRecord st (RRERRecord.length EXT_ID EXT_DES EXT_SRC)
      (fun b => { b with er_record := some ⟨EXT_ID, EXT_DES, EXT_SRC⟩ })
      (fun b => { b with er_record := some ⟨EXT_ID, EXT_DES, EXT_SRC⟩ })
  else .ok st

/-- What RockRidge.new produces: the populated entry, the hypothetical all
inline estimate (tmp_dr_len), the directory record length before the final
even padding, the returned length, and the instrumentation flag for the mid
component symlink split. -/
structure NewResult where
  entry : RockRidgeEntry
  estimate : Nat
  prePadLen : Nat
  retLen : Nat
  slBranch2 : Bool
  deriving DecidableEq, Repr

/-- RockRidge.new.  Phase 1 computes tmp_dr_len, the length if every requested
record were inline (the PX addend is RRPXRecord.length() with its 1.09
default, as in the source); a continuation entry is pre-allocated exactly when
that estimate exceeds 254, adding the 28 CE bytes to the running length.
Phase 2 places each record in the canonical order; phase 3 pads the consumed
length to an even number of bytes and returns it. -/
def RockRidge.new (is_first_dir_record_of_root : Bool) (rr_name : Option (List Nat))
    (isdir : Bool) (symlink_path : Option (List Nat)) (rr_version : RRVersion)
    (rr_relocated_child rr_relocated rr_relocated_parent : Bool)
    (curr_dr_len : Nat) : Except PyErr NewResult :=
  let tmp_dr_len := curr_dr_len
    + (if is_first_dir_record_of_root then RRSPRecord.length else 0)
    + (if rr_version = .v109 then RRRRRecord.length else 0)
    + (match rr_name with | some n => RRNMRecord.length n | none => 0)
    + RRPXRecord.length .v109
    + (match symlink_path with | some p => RRSLRecord.length (pySplit p) | none => 0)
    + RRTFRecord.length TF_FLAGS
    + (if rr_relocated_child then RRCLRecord.length else 0)
    + (if rr_relocated then RRRERecord.length else 0)
    + (if rr_relocated_parent then RRPLRecord.length else 0)
    + (if is_first_dir_record_of_root then RRERRecord.length EXT_ID EXT_DES EXT_SRC else 0)
  let hasCE := tmp_dr_len > 254
  let st0 : NewSt :=
    { bag := emptyFlatBag, cont := emptyFlatBag, hasCE := hasCE
      thisLen := curr_dr_len + (if hasCE then RRCERecord.length else 0)
      contLen := 0, slBranch2 := false }
  Except.bind (stepSP is_first_dir_record_of_root st0) fun st1 =>
  Except.bind (stepRR rr_version st1) fun st2 =>
  Except.bind (stepNM rr_name st2) fun st3 =>
  Except.bind (stepPX isdir symlink_path st3) fun st4 =>
  Except.bind (stepSL symlink_path st4) fun st5 =>
  Except.bind (stepTF st5) fun st6 =>
  Except.bind (stepCL rr_relocated_child st6) fun st7 =>
  Except.bind (stepRE rr_relocated st7) fun st8 =>
  Except.bind (stepPL rr_relocated_parent st8) fun st9 =>
  Except.bind (stepER is_first_dir_record_of_root st9) fun st10 =>
    .ok { entry :=
            { bag := st10.bag
              ce_record := if hasCE then
                  some ⟨⟨st10.cont, none, none, 0, st10.contLen⟩⟩
                else none
              child_link := none
              parent_link := none }
          estimate := tmp_dr_len
          prePadLen := st10.thisLen
          retLen := st10.thisLen + st10.thisLen % 2
          slBranch2 := st10.slBranch2 }

/-! ### Helper lemmas -/

theorem read32_pack32le (x : Nat) (hx : x < 4294967296) (r : List Nat) :
    read32 (pack32le x ++ r) = x := by
  simp [read32, pack32le]
  omega

theorem pack32le_swab32 (x : Nat) : pack32le (swab32 x) = (pack32le x).reverse := by
  have h1 : x % 256 < 256 := Nat.mod_lt _ (by norm_num)
  have h2 : x / 256 % 256 < 256 := Nat.mod_lt _ (by norm_num)
  have h3 : x / 65536 % 256 < 256 := Nat.mod_lt _ (by norm_num)
  have h4 : x / 16777216 % 256 < 256 := Nat.mod_lt _ (by norm_num)
  simp only [pack32le, swab32, List.reverse_cons, List.reverse_nil, List.nil_append,
    List.cons_append, List.cons.injEq, and_true]
  generalize x % 256 = a at *
  generalize x / 256 % 256 = b at *
  generalize x / 65536 % 256 = c at *
  generalize x / 16777216 % 256 = d at *
  refine ⟨?_, ?_, ?_, ?_⟩ <;> omega


/-! ### C3: dual-endian fields -/

/-- C3 (corrected): for CL, PL, PX, PN, CE and SF records, encoding always
emits each dual-endian field as a little endian value followed by its byte
swapped big endian copy; decoding rejects a mismatched pair for CL and PL
only, while the PN, PX, CE and SF decoders each accept any big endian copy,
matched or not, keeping the little endian value. -/
theorem C3_dual_endian :
    (∀ n : Nat, RRCLRecord.record ⟨n⟩ =
      [67, 76, 12, 1] ++ pack32le n ++ (pack32le n).reverse) ∧
    (∀ n : Nat, RRPLRecord.record ⟨n⟩ =
      [80, 76, 12, 1] ++ pack32le n ++ (pack32le n).reverse) ∧
    (∀ hi lo : Nat, RRPNRecord.record ⟨hi, lo⟩ =
      [80, 78, 20, 1] ++ pack32le hi ++ (pack32le hi).reverse
        ++ pack32le lo ++ (pack32le lo).reverse) ∧
    (∀ hi lo d : Nat, RRSFRecord.record ⟨hi, lo, d⟩ =
      [83, 70, 21, 1] ++ pack32le hi ++ (pack32le hi).reverse
        ++ pack32le lo ++ (pack32le lo).reverse ++ [d % 256]) ∧
    (∀ mode links uid gid ser : Nat,
      RRPXRecord.record ⟨mode, links, uid, gid, ser⟩ RRVersion.v109 =
        [80, 88, 36, 1] ++ pack32le mode ++ (pack32le mode).reverse
          ++ pack32le links ++ (pack32le links).reverse
          ++ pack32le uid ++ (pack32le uid).reverse
          ++ pack32le gid ++ (pack32le gid).reverse ∧
      RRPXRecord.record ⟨mode, links, uid, gid, ser⟩ RRVersion.v112 =
        [80, 88, 36, 1] ++ pack32le mode ++ (pack32le mode).reverse
          ++ pack32le links ++ (pack32le links).reverse
          ++ pack32le uid ++ (pack32le uid).reverse
          ++ pack32le gid ++ (pack32le gid).reverse
          ++ pack32le ser ++ (pack32le ser).reverse) ∧
    (∀ bag loc off len : _, RRCERecord.record ⟨⟨bag, some loc, none, off, len⟩⟩ =
      .ok ([67, 69, 28, 1] ++ pack32le loc ++ (pack32le loc).reverse
        ++ pack32le off ++ (pack32le off).reverse
        ++ pack32le len ++ (pack32le len).reverse)) ∧
    (∀ a b : Nat, a < 4294967296 → b < 4294967296 → a ≠ swab32 b →
      RRCLRecord.parse ([67, 76, 12, 1] ++ pack32le a ++ pack32le b) =
        .error .littleBigMismatch) ∧
    (∀ a b : Nat, a < 4294967296 → b < 4294967296 → a ≠ swab32 b →
      RRPLRecord.parse ([80, 76, 12, 1] ++ pack32le a ++ pack32le b) =
        .error .littleBigMismatch) ∧
    (∀ a a2 b b2 : Nat, a < 4294967296 → a2 < 4294967296 → b < 4294967296 →
      b2 < 4294967296 →
      RRPNRecord.parse ([80, 78, 20, 1] ++ pack32le a ++ pack32le a2
        ++ pack32le b ++ pack32le b2) = .ok ⟨a, b⟩) ∧
    (∀ m m2 li li2 u u2 g g2 : Nat, m < 4294967296 → li < 4294967296 →
      u < 4294967296 → g < 4294967296 →
      RRPXRecord.parse ([80, 88, 36, 1] ++ pack32le m ++ pack32le m2
        ++ pack32le li ++ pack32le li2 ++ pack32le u ++ pack32le u2
        ++ pack32le g ++ pack32le g2) = .ok ⟨m, li, u, g, 0⟩) ∧
    (∀ a a2 b b2 c c2 : Nat, a < 4294967296 → b < 4294967296 → c < 4294967296 →
      RRCERecord.parse ([67, 69, 28, 1] ++ pack32le a ++ pack32le a2
        ++ pack32le b ++ pack32le b2 ++ pack32le c ++ pack32le c2)
        = .ok ⟨⟨emptyFlatBag, some a, none, b, c⟩⟩) ∧
    (∀ a a2 b b2 d : Nat, a < 4294967296 → b < 4294967296 →
      RRSFRecord.parse ([83, 70, 21, 1] ++ pack32le a ++ pack32le a2
        ++ pack32le b ++ pack32le b2 ++ [d]) = .ok ⟨a, b, d⟩) := by
  refine ⟨?_, ?_, ?_, ?_, ?_, ?_, ?_, ?_, ?_, ?_, ?_, ?_⟩
  · intro n
    simp [RRCLRecord.record, RRCLRecord.length, SU_ENTRY_VERSION, pack32le_swab32]
  · intro n
    simp [RRPLRecord.record, RRPLRecord.length, SU_ENTRY_VERSION, pack32le_swab32]
  · intro hi lo
    simp [RRPNRecord.record, RRPNRecord.length, SU_ENTRY_VERSION, pack32le_swab32]
  · intro hi lo d
    simp [RRSFRecord.record, RRSFRecord.length, SU_ENTRY_VERSION, pack32le_swab32]
  · intro mode links uid gid ser
    constructor
    · simp [RRPXRecord.record, RRPXRecord.length, SU_ENTRY_VERSION, pack32le_swab32]
    · simp [RRPXRecord.record, RRPXRecord.length, SU_ENTRY_VERSION, pack32le_swab32]
  · intro bag loc off len
    simp [RRCERecord.record, RRCERecord.length, RRContinuation.extent_location,
      SU_ENTRY_VERSION, pack32le_swab32]
  · intro a b ha hb hne
    have h1 : (([67, 76, 12, 1] ++ pack32le a ++ pack32le b).drop 2).take 10 =
        [12, 1] ++ pack32le a ++ pack32le b := by simp [pack32le]
    simp only [RRCLRecord.parse]
    rw [h1]
    have h2 : ([12, 1] ++ pack32le a ++ pack32le b).drop 2 = pack32le a ++ pack32le b := by
      simp [pack32le]
    have h3 : ([12, 1] ++ pack32le a ++ pack32le b).drop 6 = pack32le b ++ [] := by
      simp [pack32le]
    have h4 : ([12, 1] ++ pack32le a ++ pack32le b).length = 10 := by simp [pack32le]
    have h5 : ([12, 1] ++ pack32le a ++ pack32le b).getD 0 0 = 12 := by simp [pack32le]
    rw [h2, h3, h4, h5, read32_pack32le a ha, read32_pack32le b hb]
    simp [RRCLRecord.length, hne]
  · intro a b ha hb hne
    have h1 : (([80, 76, 12, 1] ++ pack32le a ++ pack32le b).drop 2).take 10 =
        [12, 1] ++ pack32le a ++ pack32le b := by simp [pack32le]
    simp only [RRPLRecord.parse]
    rw [h1]
    have h2 : ([12, 1] ++ pack32le a ++ pack32le b).drop 2 = pack32le a ++ pack32le b := by
      simp [pack32le]
    have h3 : ([12, 1] ++ pack32le a ++ pack32le b).drop 6 = pack32le b ++ [] := by
      simp [pack32le]
    have h4 : ([12, 1] ++ pack32le a ++ pack32le b).length = 10 := by simp [pack32le]
    have h5 : ([12, 1] ++ pack32le a ++ pack32le b).getD 0 0 = 12 := by simp [pack32le]
    rw [h2, h3, h4, h5, read32_pack32le a ha, read32_pack32le b hb]
    simp [RRPLRecord.length, hne]
  · intro a a2 b b2 ha ha2 hb hb2
    have h1 : (([80, 78, 20, 1] ++ pack32le a ++ pack32le a2 ++ pack32le b
        ++ pack32le b2).drop 2).take 18 =
        [20, 1] ++ pack32le a ++ pack32le a2 ++ pack32le b ++ pack32le b2 := by
      simp [pack32le]
    simp only [RRPNRecord.parse]
    rw [h1]
    have h2 : ([20, 1] ++ pack32le a ++ pack32le a2 ++ pack32le b ++ pack32le b2).drop 2 =
        pack32le a ++ (pack32le a2 ++ pack32le b ++ pack32le b2) := by simp [pack32le]
    have h3 : ([20, 1] ++ pack32le a ++ pack32le a2 ++ pack32le b ++ pack32le b2).drop 10 =
        pack32le b ++ pack32le b2 := by simp [pack32le]
    have h4 : ([20, 1] ++ pack32le a ++ pack32le a2 ++ pack32le b
        ++ pack32le b2).length = 18 := by simp [pack32le]
    have h5 : ([20, 1] ++ pack32le a ++ pack32le a2 ++ pack32le b
        ++ pack32le b2).getD 0 0 = 20 := by simp [pack32le]
    rw [h2, h3, h4, h5, read32_pack32le a ha, read32_pack32le b hb]
    simp [RRPNRecord.length]
  · intro m m2 li li2 u u2 g g2 hm hli hu hg
    simp [RRPXRecord.parse, pack32le, read32]
    omega
  · intro a a2 b b2 c c2 ha hb hc
    simp [RRCERecord.parse, RRCERecord.length, pack32le, read32]
    omega
  · intro a a2 b b2 d ha hb
    simp [RRSFRecord.parse, RRSFRecord.length, pack32le, read32]
    omega

/-! ### C2: round trips -/

theorem swab32_lt (x : Nat) : swab32 x < 4294967296 := by
  simp only [swab32]
  omega

theorem swab32_bytes (a b c d : Nat) (ha : a < 256) (hb : b < 256) (hc : c < 256)
    (hd : d < 256) :
    swab32 (a * 16777216 + b * 65536 + c * 256 + d) = d * 16777216 + c * 65536 + b * 256 + a := by
  simp only [swab32]
  omega

theorem swab32_swab32 (x : Nat) (hx : x < 4294967296) : swab32 (swab32 x) = x := by
  have h1 : x % 256 < 256 := Nat.mod_lt _ (by norm_num)
  have h2 : x / 256 % 256 < 256 := Nat.mod_lt _ (by norm_num)
  have h3 : x / 65536 % 256 < 256 := Nat.mod_lt _ (by norm_num)
  have h4 : x / 16777216 % 256 < 256 := Nat.mod_lt _ (by norm_num)
  have key : swab32 (swab32 x) = x / 16777216 % 256 * 16777216 + x / 65536 % 256 * 65536
      + x / 256 % 256 * 256 + x % 256 :=
    swab32_bytes (x % 256) (x / 256 % 256) (x / 65536 % 256) (x / 16777216 % 256) h1 h2 h3 h4
  rw [key]
  omega

theorem sp_roundtrip (b : Nat) (hb : b < 256) :
    RRSPRecord.parse (RRSPRecord.record ⟨b⟩) = .ok ⟨b⟩ := by
  simp [RRSPRecord.parse, RRSPRecord.record, RRSPRecord.length, SU_ENTRY_VERSION,
    Nat.mod_eq_of_lt hb]

theorem rr_roundtrip (f : Nat) (hf : f < 256) :
    RRRRRecord.parse (RRRRRecord.record ⟨f⟩) = .ok ⟨f⟩ := by
  simp [RRRRRecord.parse, RRRRRecord.record, RRRRRecord.length, SU_ENTRY_VERSION,
    Nat.mod_eq_of_lt hf]

theorem es_roundtrip (s : Nat) (hs : s < 256) :
    RRESRecord.parse (RRESRecord.record ⟨s⟩) = .ok ⟨s⟩ := by
  simp [RRESRecord.parse, RRESRecord.record, RRESRecord.length, SU_ENTRY_VERSION,
    Nat.mod_eq_of_lt hs]

theorem re_roundtrip : RRRERecord.parse (RRRERecord.record ⟨⟩) = .ok ⟨⟩ := by
  decide

theorem pn_roundtrip (hi lo : Nat) (hhi : hi < 4294967296) (hlo : lo < 4294967296) :
    RRPNRecord.parse (RRPNRecord.record ⟨hi, lo⟩) = .ok ⟨hi, lo⟩ := by
  simp only [RRPNRecord.parse, RRPNRecord.record, RRPNRecord.length, SU_ENTRY_VERSION]
  have h1 : (([80, 78] ++ [20, 1] ++ pack32le hi ++ pack32le (swab32 hi) ++ pack32le lo
      ++ pack32le (swab32 lo)).drop 2).take 18 =
      [20, 1] ++ pack32le hi ++ pack32le (swab32 hi) ++ pack32le lo
      ++ pack32le (swab32 lo) := by simp [pack32le]
  rw [h1]
  have h2 : ([20, 1] ++ pack32le hi ++ pack32le (swab32 hi) ++ pack32le lo
      ++ pack32le (swab32 lo)).drop 2 =
      pack32le hi ++ (pack32le (swab32 hi) ++ pack32le lo ++ pack32le (swab32 lo)) := by
    simp [pack32le]
  have h3 : ([20, 1] ++ pack32le hi ++ pack32le (swab32 hi) ++ pack32le lo
      ++ pack32le (swab32 lo)).drop 10 = pack32le lo ++ pack32le (swab32 lo) := by
    simp [pack32le]
  have h4 : ([20, 1] ++ pack32le hi ++ pack32le (swab32 hi) ++ pack32le lo
      ++ pack32le (swab32 lo)).length = 18 := by simp [pack32le]
  have h5 : ([20, 1] ++ pack32le hi ++ pack32le (swab32 hi) ++ pack32le lo
      ++ pack32le (swab32 lo)).getD 0 0 = 20 := by simp [pack32le]
  rw [h2, h3, h4, h5, read32_pack32le hi hhi, read32_pack32le lo hlo]
  simp

theorem sf_roundtrip (hi lo d : Nat) (hhi : hi < 4294967296) (hlo : lo < 4294967296)
    (hd : d < 256) :
    RRSFRecord.parse (RRSFRecord.record ⟨hi, lo, d⟩) = .ok ⟨hi, lo, d⟩ := by
  simp only [RRSFRecord.parse, RRSFRecord.record, RRSFRecord.length, SU_ENTRY_VERSION]
  have h1 : (([83, 70] ++ [21, 1] ++ pack32le hi ++ pack32le (swab32 hi) ++ pack32le lo
      ++ pack32le (swab32 lo) ++ [d % 256]).drop 2).take 19 =
      [21, 1] ++ pack32le hi ++ pack32le (swab32 hi) ++ pack32le lo
      ++ pack32le (swab32 lo) ++ [d % 256] := by simp [pack32le]
  rw [h1]
  have h2 : ([21, 1] ++ pack32le hi ++ pack32le (swab32 hi) ++ pack32le lo
      ++ pack32le (swab32 lo) ++ [d % 256]).drop 2 =
      pack32le hi ++ (pack32le (swab32 hi) ++ pack32le lo ++ pack32le (swab32 lo)
      ++ [d % 256]) := by simp [pack32le]
  have h3 : ([21, 1] ++ pack32le hi ++ pack32le (swab32 hi) ++ pack32le lo
      ++ pack32le (swab32 lo) ++ [d % 256]).drop 10 =
      pack32le lo ++ (pack32le (swab32 lo) ++ [d % 256]) := by simp [pack32le]
  have h4 : ([21, 1] ++ pack32le hi ++ pack32le (swab32 hi) ++ pack32le lo
      ++ pack32le (swab32 lo) ++ [d % 256]).length = 19 := by simp [pack32le]
  have h5 : ([21, 1] ++ pack32le hi ++ pack32le (swab32 hi) ++ pack32le lo
      ++ pack32le (swab32 lo) ++ [d % 256]).getD 0 0 = 21 := by simp [pack32le]
  have h6 : ([21, 1] ++ pack32le hi ++ pack32le (swab32 hi) ++ pack32le lo
      ++ pack32le (swab32 lo) ++ [d % 256]).getD 18 0 = d % 256 := by simp [pack32le]
  rw [h2, h3, h4, h5, h6, read32_pack32le hi hhi, read32_pack32le lo hlo]
  simp [Nat.mod_eq_of_lt hd]

theorem px_roundtrip (mode links uid gid : Nat) (h1 : mode < 4294967296)
    (h2 : links < 4294967296) (h3 : uid < 4294967296) (h4 : gid < 4294967296) :
    RRPXRecord.parse (RRPXRecord.record ⟨mode, links, uid, gid, 0⟩ .v109) =
      .ok ⟨mode, links, uid, gid, 0⟩ := by
  simp [RRPXRecord.parse, RRPXRecord.record, RRPXRecord.length, SU_ENTRY_VERSION,
    pack32le, read32, swab32]
  omega

theorem ce_roundtrip (loc off len : Nat) (h1 : loc < 4294967296) (h2 : off < 4294967296)
    (h3 : len < 4294967296) :
    (RRCERecord.record ⟨⟨emptyFlatBag, some loc, none, off, len⟩⟩).bind RRCERecord.parse =
      .ok ⟨⟨emptyFlatBag, some loc, none, off, len⟩⟩ := by
  simp [RRCERecord.record, RRContinuation.extent_location, RRCERecord.length,
    SU_ENTRY_VERSION, Except.bind, RRCERecord.parse, pack32le, read32, swab32]
  omega

theorem cl_roundtrip (n : Nat) (hn : n < 4294967296) :
    RRCLRecord.parse (RRCLRecord.record ⟨n⟩) = .ok ⟨n⟩ := by
  have h1 : (([67, 76] ++ [12, 1] ++ pack32le n ++ pack32le (swab32 n)).drop 2).take 10 =
      [12, 1] ++ pack32le n ++ pack32le (swab32 n) := by simp [pack32le]
  simp only [RRCLRecord.parse, RRCLRecord.record, RRCLRecord.length, SU_ENTRY_VERSION]
  rw [h1]
  have h2 : ([12, 1] ++ pack32le n ++ pack32le (swab32 n)).drop 2 =
      pack32le n ++ pack32le (swab32 n) := by simp [pack32le]
  have h3 : ([12, 1] ++ pack32le n ++ pack32le (swab32 n)).drop 6 =
      pack32le (swab32 n) ++ [] := by simp [pack32le]
  have h4 : ([12, 1] ++ pack32le n ++ pack32le (swab32 n)).length = 10 := by simp [pack32le]
  have h5 : ([12, 1] ++ pack32le n ++ pack32le (swab32 n)).getD 0 0 = 12 := by simp [pack32le]
  rw [h2, h3, h4, h5, read32_pack32le n hn, read32_pack32le (swab32 n) (swab32_lt n)]
  simp [swab32_swab32 n hn]

theorem pl_roundtrip (n : Nat) (hn : n < 4294967296) :
    RRPLRecord.parse (RRPLRecord.record ⟨n⟩) = .ok ⟨n⟩ := by
  have h1 : (([80, 76] ++ [12, 1] ++ pack32le n ++ pack32le (swab32 n)).drop 2).take 10 =
      [12, 1] ++ pack32le n ++ pack32le (swab32 n) := by simp [pack32le]
  simp only [RRPLRecord.parse, RRPLRecord.record, RRPLRecord.length, SU_ENTRY_VERSION]
  rw [h1]
  have h2 : ([12, 1] ++ pack32le n ++ pack32le (swab32 n)).drop 2 =
      pack32le n ++ pack32le (swab32 n) := by simp [pack32le]
  have h3 : ([12, 1] ++ pack32le n ++ pack32le (swab32 n)).drop 6 =
      pack32le (swab32 n) ++ [] := by simp [pack32le]
  have h4 : ([12, 1] ++ pack32le n ++ pack32le (swab32 n)).length = 10 := by simp [pack32le]
  have h5 : ([12, 1] ++ pack32le n ++ pack32le (swab32 n)).getD 0 0 = 12 := by simp [pack32le]
  rw [h2, h3, h4, h5, read32_pack32le n hn, read32_pack32le (swab32 n) (swab32_lt n)]
  simp [swab32_swab32 n hn]

theorem pySlice_five (b1 b2 b3 b4 b5 : Nat) (t : List Nat) :
    pySlice (b1 :: b2 :: b3 :: b4 :: b5 :: t) 5 (5 + (t.length : Int)) = t := by
  have hb : pyBound (b1 :: b2 :: b3 :: b4 :: b5 :: t).length (5 + (t.length : Int)) =
      5 + t.length := by
    unfold pyBound
    rw [if_neg (by omega)]
    simp
    omega
  have ha : pyBound (b1 :: b2 :: b3 :: b4 :: b5 :: t).length 5 = 5 := by
    unfold pyBound
    rw [if_neg (by omega)]
    simp
  rw [pySlice, hb, ha]
  have ht : (b1 :: b2 :: b3 :: b4 :: b5 :: t).take (5 + t.length) =
      b1 :: b2 :: b3 :: b4 :: b5 :: t := by
    apply List.take_of_length_le
    simp
    omega
  rw [ht]
  rfl

theorem nm_roundtrip (flags : Nat) (name : List Nat) (hf : flags < 256)
    (hm : flags % 8 = 0 ∨ flags % 8 = 1 ∨ flags % 8 = 2 ∨ flags % 8 = 4)
    (hbits : name ≠ [] → flags.testBit 1 = false ∧ flags.testBit 2 = false ∧
      flags.testBit 5 = false)
    (hlen : name.length ≤ 250) :
    RRNMRecord.parse (RRNMRecord.record ⟨flags, name⟩) = .ok ⟨flags, name⟩ := by
  have hsu : (5 + name.length) % 256 = 5 + name.length := Nat.mod_eq_of_lt (by omega)
  have hfl : flags % 256 = flags := Nat.mod_eq_of_lt hf
  simp only [RRNMRecord.parse, RRNMRecord.record, RRNMRecord.length, SU_ENTRY_VERSION]
  have hhdr : (([78, 77] ++ [(5 + name.length) % 256, 1, flags % 256] ++ name).drop 2).take 3 =
      [5 + name.length, 1, flags] := by
    simp [hsu, hfl]
  rw [hhdr]
  have hmem : ¬¬(flags % 8 = 0 ∨ flags % 8 = 1 ∨ flags % 8 = 2 ∨ flags % 8 = 4) :=
    not_not_intro hm
  rcases List.eq_nil_or_concat name with hnil | ⟨_, _, hne⟩
  · subst hnil
    simp [hmem]
  · have hne2 : name ≠ [] := by subst hne; simp
    obtain ⟨hb1, hb2, hb5⟩ := hbits hne2
    have hlen0 : name.length ≠ 0 := by
      intro h0
      exact hne2 (List.eq_nil_of_length_eq_zero h0)
    have hnl : ((5 + name.length : Nat) : Int) - 5 = (name.length : Int) := by omega
    simp [hmem, hnl, hb1, hb2, hb5, hlen0]
    exact pySlice_five 78 77 ((5 + name.length) % 256) 1 (flags % 256) name

theorem er_roundtrip (ei ed es : List Nat) (h1 : ei.length < 256) (h2 : ed.length < 256)
    (h3 : es.length < 256) (_h4 : 8 + ei.length + ed.length + es.length ≤ 255) :
    RRERRecord.parse (RRERRecord.record ⟨ei, ed, es⟩) = .ok ⟨ei, ed, es⟩ := by
  simp only [RRERRecord.parse, RRERRecord.record, RRERRecord.length, SU_ENTRY_VERSION]
  have hhdr : (([69, 82] ++ [(8 + ei.length + ed.length + es.length) % 256, 1,
      ei.length % 256, ed.length % 256, es.length % 256, 1] ++ ei ++ ed ++ es).drop 2).take 6 =
      [(8 + ei.length + ed.length + es.length) % 256, 1,
       ei.length % 256, ed.length % 256, es.length % 256, 1] := by
    simp
  rw [hhdr]
  have g2 : ([(8 + ei.length + ed.length + es.length) % 256, 1,
      ei.length % 256, ed.length % 256, es.length % 256, 1] : List Nat).getD 2 0 =
      ei.length := by simp [Nat.mod_eq_of_lt h1]
  have g3 : ([(8 + ei.length + ed.length + es.length) % 256, 1,
      ei.length % 256, ed.length % 256, es.length % 256, 1] : List Nat).getD 3 0 =
      ed.length := by simp [Nat.mod_eq_of_lt h2]
  have g4 : ([(8 + ei.length + ed.length + es.length) % 256, 1,
      ei.length % 256, ed.length % 256, es.length % 256, 1] : List Nat).getD 4 0 =
      es.length := by simp [Nat.mod_eq_of_lt h3]
  have d8 : ([69, 82] ++ [(8 + ei.length + ed.length + es.length) % 256, 1,
      ei.length % 256, ed.length % 256, es.length % 256, 1] ++ ei ++ ed ++ es).drop 8 =
      ei ++ (ed ++ es) := by simp
  have d8i : ([69, 82] ++ [(8 + ei.length + ed.length + es.length) % 256, 1,
      ei.length % 256, ed.length % 256, es.length % 256, 1] ++ ei ++ ed ++ es).drop
      (8 + ei.length) = ed ++ es := by
    rw [← List.drop_drop, d8]
    simp
  have d8id : ([69, 82] ++ [(8 + ei.length + ed.length + es.length) % 256, 1,
      ei.length % 256, ed.length % 256, es.length % 256, 1] ++ ei ++ ed ++ es).drop
      (8 + ei.length + ed.length) = es := by
    rw [← List.drop_drop, d8i]
    simp
  rw [g2, g3, g4, d8, d8i, d8id]
  simp [List.take_left]

/-- One step unfolding of the SL component loop on a buffer with a visible
two byte entry header. -/
theorem slParseLoop_cons (cr_flags len_cp : Nat) (rest : List Nat) (dl : Nat)
    (hdl : dl ≠ 0) (name : List Nat) (acc : List (List Nat)) :
    slParseLoop (cr_flags :: len_cp :: rest) dl name acc =
      (if cr_flags ∉ [0, 1, 2, 4, 8] then .error .invalidSymlinkFlags
      else if (cr_flags.testBit 1 ∨ cr_flags.testBit 2 ∨ cr_flags.testBit 3) ∧ len_cp ≠ 0 then
        .error .symlinkDotLength
      else if (cr_flags.testBit 1 ∨ cr_flags.testBit 2 ∨ cr_flags.testBit 3) ∧ name ≠ [] then
        .error .symlinkContinuationDot
      else
        let name1 := if cr_flags.testBit 1 then name ++ [46]
          else if cr_flags.testBit 2 then name ++ [46, 46]
          else if cr_flags.testBit 3 then name ++ [47]
          else name ++ rest.take len_cp
        let st := if cr_flags.testBit 0 then (name1, acc) else ([], acc ++ [name1])
        slParseLoop (rest.drop len_cp) (dl - 2 - len_cp) st.1 st.2) := by
  rw [slParseLoop]
  simp [hdl]

theorem slParseLoop_zero (buf : List Nat) (name : List Nat) (acc : List (List Nat)) :
    slParseLoop buf 0 name acc = .ok acc := by
  unfold slParseLoop
  simp

/-- The SL component loop inverts the component encoder. -/
theorem slParseLoop_enc (comps : List (List Nat)) (acc : List (List Nat))
    (hb : ∀ c ∈ comps, c.length < 256) :
    slParseLoop ((comps.map RRSLRecord.encComp).flatten)
      ((comps.map RRSLRecord.component_length).sum) [] acc = .ok (acc ++ comps) := by
  induction comps generalizing acc with
  | nil => simpa using slParseLoop_zero [] [] acc
  | cons c cs ih =>
    have hc : c.length < 256 := hb c (by simp)
    have hcs : ∀ x ∈ cs, x.length < 256 := fun x hx => hb x (by simp [hx])
    rw [List.map_cons, List.flatten_cons, List.map_cons, List.sum_cons]
    by_cases h1 : c = [46]
    · subst h1
      rw [show RRSLRecord.encComp [46] = [2, 0] from rfl,
        show RRSLRecord.component_length [46] = 2 from rfl,
        show ([2, 0] : List Nat) ++ (cs.map RRSLRecord.encComp).flatten =
          2 :: 0 :: (cs.map RRSLRecord.encComp).flatten from rfl]
      rw [slParseLoop_cons _ _ _ _ (by omega) _ _]
      rw [if_neg (by decide), if_neg (by decide), if_neg (by decide)]
      simp only [show Nat.testBit 2 1 = true from rfl, show Nat.testBit 2 0 = false from rfl,
        if_true, Bool.false_eq_true, if_false, List.nil_append, List.drop_zero]
      rw [show 2 + (cs.map RRSLRecord.component_length).sum - 2 - 0 =
        (cs.map RRSLRecord.component_length).sum by omega]
      rw [ih _ hcs]
      simp
    · by_cases h2 : c = [46, 46]
      · subst h2
        rw [show RRSLRecord.encComp [46, 46] = [4, 0] from rfl,
          show RRSLRecord.component_length [46, 46] = 2 from rfl,
          show ([4, 0] : List Nat) ++ (cs.map RRSLRecord.encComp).flatten =
            4 :: 0 :: (cs.map RRSLRecord.encComp).flatten from rfl]
        rw [slParseLoop_cons _ _ _ _ (by omega) _ _]
        rw [if_neg (by decide), if_neg (by decide), if_neg (by decide)]
        simp only [show Nat.testBit 4 1 = false from rfl, show Nat.testBit 4 2 = true from rfl,
          show Nat.testBit 4 0 = false from rfl,
          if_true, Bool.false_eq_true, if_false, List.nil_append, List.drop_zero]
        rw [show 2 + (cs.map RRSLRecord.component_length).sum - 2 - 0 =
          (cs.map RRSLRecord.component_length).sum by omega]
        rw [ih _ hcs]
        simp
      · by_cases h3 : c = [47]
        · subst h3
          rw [show RRSLRecord.encComp [47] = [8, 0] from rfl,
            show RRSLRecord.component_length [47] = 2 from rfl,
            show ([8, 0] : List Nat) ++ (cs.map RRSLRecord.encComp).flatten =
              8 :: 0 :: (cs.map RRSLRecord.encComp).flatten from rfl]
          rw [slParseLoop_cons _ _ _ _ (by omega) _ _]
          rw [if_neg (by decide), if_neg (by decide), if_neg (by decide)]
          simp only [show Nat.testBit 8 1 = false from rfl, show Nat.testBit 8 2 = false from rfl,
            show Nat.testBit 8 3 = true from rfl, show Nat.testBit 8 0 = false from rfl,
            if_true, Bool.false_eq_true, if_false, List.nil_append, List.drop_zero]
          rw [show 2 + (cs.map RRSLRecord.component_length).sum - 2 - 0 =
            (cs.map RRSLRecord.component_length).sum by omega]
          rw [ih _ hcs]
          simp
        · rw [show RRSLRecord.encComp c = [0, c.length % 256] ++ c by
            simp [RRSLRecord.encComp, h1, h2, h3]]
          rw [show RRSLRecord.component_length c = 2 + c.length by
            simp [RRSLRecord.component_length, h1, h2, h3]]
          have hbuf : (([0, c.length % 256] ++ c) : List Nat)
              ++ (cs.map RRSLRecord.encComp).flatten =
              0 :: c.length % 256 :: (c ++ (cs.map RRSLRecord.encComp).flatten) := by
            simp
          rw [hbuf]
          rw [slParseLoop_cons _ _ _ _ (by omega) _ _]
          rw [if_neg (by decide), if_neg (by simp), if_neg (by simp)]
          simp only [Nat.zero_testBit, Bool.false_eq_true, if_false, List.nil_append,
            Nat.mod_eq_of_lt hc]
          rw [List.take_left, List.drop_left]
          rw [show 2 + c.length + (cs.map RRSLRecord.component_length).sum - 2 - c.length =
            (cs.map RRSLRecord.component_length).sum by omega]
          rw [ih _ hcs]
          simp

theorem sl_roundtrip (flags : Nat) (comps : List (List Nat)) (hf : flags < 256)
    (hb : ∀ c ∈ comps, c.length < 256) (hlen : RRSLRecord.length comps ≤ 255) :
    RRSLRecord.parse (RRSLRecord.record ⟨comps, flags⟩) = .ok ⟨comps, flags⟩ := by
  simp only [RRSLRecord.parse, RRSLRecord.record, SU_ENTRY_VERSION]
  have hsu : RRSLRecord.length comps % 256 = RRSLRecord.length comps :=
    Nat.mod_eq_of_lt (by omega)
  have hhdr : (([83, 76] ++ [RRSLRecord.length comps % 256, 1, flags % 256]
      ++ (comps.map RRSLRecord.encComp).flatten).drop 2).take 3 =
      [RRSLRecord.length comps, 1, flags] := by
    simp [hsu, Nat.mod_eq_of_lt hf]
  rw [hhdr]
  have hd5 : ([83, 76] ++ [RRSLRecord.length comps % 256, 1, flags % 256]
      ++ (comps.map RRSLRecord.encComp).flatten).drop 5 =
      (comps.map RRSLRecord.encComp).flatten := by simp
  have hdl : ([RRSLRecord.length comps, 1, flags] : List Nat).getD 0 0 - 5 =
      (comps.map RRSLRecord.component_length).sum := by
    simp [RRSLRecord.length]
  simp only [List.length_cons, List.length_nil, hd5, hdl]
  norm_num
  rw [slParseLoop_enc comps [] hb]
  simp

theorem dateLenOk_spec (n : Nat) (o : Option RRDate) (h : dateLenOk n o = true) :
    ∀ d, o = some d → d.payload.length = n := by
  intro d hd
  subst hd
  simpa [dateLenOk] using h

theorem tfChunk_enc (o : Option RRDate) (flag : Bool) (tflen : Nat) (rest : List Nat)
    (hflag : flag = o.isSome) (hlen : ∀ d, o = some d → d.payload.length = tflen) :
    tfChunk flag tflen (encDate o ++ rest) = (o, rest) := by
  cases o with
  | none =>
    subst hflag
    simp [tfChunk, encDate]
  | some d =>
    subst hflag
    have hd := hlen d rfl
    simp only [tfChunk, encDate, Option.isSome_some, if_true]
    rw [← hd, List.take_left, List.drop_left]

theorem RRTFRecord.length_le (f : Nat) : RRTFRecord.length f ≤ 124 := by
  unfold RRTFRecord.length
  have hc : ((List.range 7).countP fun i => f.testBit i) ≤ 7 := by
    have := List.countP_le_length (l := List.range 7) (p := fun i => f.testBit i)
    simpa using this
  by_cases h : f.testBit 7 <;> simp [h] <;> omega

/-- RRTFRecord.parse on a record whose five header bytes are visible. -/
theorem tf_parse_cons (su fl : Nat) (body : List Nat) (h5 : ¬(su < 5)) :
    RRTFRecord.parse (84 :: 70 :: su :: 1 :: fl :: body) =
      (let tflen := if fl.testBit 7 then 17 else 7
       match tfChunk (fl.testBit 0) tflen body with
       | (c0, r1) =>
       match tfChunk (fl.testBit 1) tflen r1 with
       | (c1, r2) =>
       match tfChunk (fl.testBit 2) tflen r2 with
       | (c2, r3) =>
       match tfChunk (fl.testBit 3) tflen r3 with
       | (c3, r4) =>
       match tfChunk (fl.testBit 4) tflen r4 with
       | (c4, r5) =>
       match tfChunk (fl.testBit 5) tflen r5 with
       | (c5, r6) =>
       match tfChunk (fl.testBit 6) tflen r6 with
       | (c6, _) =>
       .ok ⟨fl, c0, c1, c2, c3, c4, c5, c6⟩) := by
  unfold RRTFRecord.parse
  simp [h5]

theorem tf_roundtrip (v : RRTFRecord) (hwf : v.wfb = true) :
    RRTFRecord.parse (RRTFRecord.record v) = .ok v := by
  unfold RRTFRecord.wfb at hwf
  simp only [Bool.and_eq_true, decide_eq_true_eq, beq_iff_eq] at hwf
  obtain ⟨⟨⟨⟨⟨⟨⟨⟨⟨⟨⟨⟨⟨⟨hflt, h0⟩, h0l⟩, h1⟩, h1l⟩, h2⟩, h2l⟩, h3⟩, h3l⟩, h4⟩, h4l⟩,
    h5⟩, h5l⟩, h6⟩, h6l⟩ := hwf
  have hlen := RRTFRecord.length_le v.time_flags
  have hlen5 : 5 ≤ RRTFRecord.length v.time_flags := Nat.le_add_right _ _
  have hsu : RRTFRecord.length v.time_flags % 256 = RRTFRecord.length v.time_flags :=
    Nat.mod_eq_of_lt (by omega)
  have hfl : v.time_flags % 256 = v.time_flags := Nat.mod_eq_of_lt hflt
  have hrec : RRTFRecord.record v = 84 :: 70 :: (RRTFRecord.length v.time_flags) :: 1 ::
      v.time_flags :: (encDate v.creation_time ++ (encDate v.access_time
      ++ (encDate v.modification_time ++ (encDate v.attribute_change_time
      ++ (encDate v.backup_time ++ (encDate v.expiration_time
      ++ (encDate v.effective_time ++ []))))))) := by
    simp [RRTFRecord.record, SU_ENTRY_VERSION, hsu, hfl]
  rw [hrec, tf_parse_cons _ _ _ (by omega)]
  have htfl : (if Nat.testBit v.time_flags 7 then 17 else 7) = v.tflenOf := rfl
  simp only [htfl]
  rw [tfChunk_enc v.creation_time _ _ _ h0 (dateLenOk_spec _ _ h0l)]
  dsimp only
  rw [tfChunk_enc v.access_time _ _ _ h1 (dateLenOk_spec _ _ h1l)]
  dsimp only
  rw [tfChunk_enc v.modification_time _ _ _ h2 (dateLenOk_spec _ _ h2l)]
  dsimp only
  rw [tfChunk_enc v.attribute_change_time _ _ _ h3 (dateLenOk_spec _ _ h3l)]
  dsimp only
  rw [tfChunk_enc v.backup_time _ _ _ h4 (dateLenOk_spec _ _ h4l)]
  dsimp only
  rw [tfChunk_enc v.expiration_time _ _ _ h5 (dateLenOk_spec _ _ h5l)]
  dsimp only
  rw [tfChunk_enc v.effective_time _ _ _ h6 (dateLenOk_spec _ _ h6l)]

/-- C2 (corrected): decode inverts encode for every record type on valid
values, with one exception forced by the code: RRPXRecord.record drops or
mislabels the serial number field (su_len is always 36), so the PX round trip
holds exactly for values whose serial number is zero.  The SL, NM, ER and TF
codecs round trip under the wire format bounds (record and component lengths
fit their length bytes, NM flag bits are consistent, TF timestamps match
their flag bits). -/
theorem C2_roundtrip :
    (∀ b : Nat, b < 256 → RRSPRecord.parse (RRSPRecord.record ⟨b⟩) = .ok ⟨b⟩) ∧
    (∀ f : Nat, f < 256 → RRRRRecord.parse (RRRRRecord.record ⟨f⟩) = .ok ⟨f⟩) ∧
    (∀ s : Nat, s < 256 → RRESRecord.parse (RRESRecord.record ⟨s⟩) = .ok ⟨s⟩) ∧
    RRRERecord.parse (RRRERecord.record ⟨⟩) = .ok ⟨⟩ ∧
    (∀ hi lo : Nat, hi < 4294967296 → lo < 4294967296 →
      RRPNRecord.parse (RRPNRecord.record ⟨hi, lo⟩) = .ok ⟨hi, lo⟩) ∧
    (∀ n : Nat, n < 4294967296 →
      RRCLRecord.parse (RRCLRecord.record ⟨n⟩) = .ok ⟨n⟩) ∧
    (∀ n : Nat, n < 4294967296 →
      RRPLRecord.parse (RRPLRecord.record ⟨n⟩) = .ok ⟨n⟩) ∧
    (∀ hi lo d : Nat, hi < 4294967296 → lo < 4294967296 → d < 256 →
      RRSFRecord.parse (RRSFRecord.record ⟨hi, lo, d⟩) = .ok ⟨hi, lo, d⟩) ∧
    (∀ loc off len : Nat, loc < 4294967296 → off < 4294967296 → len < 4294967296 →
      (RRCERecord.record ⟨⟨emptyFlatBag, some loc, none, off, len⟩⟩).bind RRCERecord.parse =
        .ok ⟨⟨emptyFlatBag, some loc, none, off, len⟩⟩) ∧
    (∀ mode links uid gid : Nat, mode < 4294967296 → links < 4294967296 →
      uid < 4294967296 → gid < 4294967296 →
      RRPXRecord.parse (RRPXRecord.record ⟨mode, links, uid, gid, 0⟩ .v109) =
        .ok ⟨mode, links, uid, gid, 0⟩) ∧
    (∀ (flags : Nat) (name : List Nat), flags < 256 →
      (flags % 8 = 0 ∨ flags % 8 = 1 ∨ flags % 8 = 2 ∨ flags % 8 = 4) →
      (name ≠ [] → flags.testBit 1 = false ∧ flags.testBit 2 = false ∧
        flags.testBit 5 = false) →
      name.length ≤ 250 →
      RRNMRecord.parse (RRNMRecord.record ⟨flags, name⟩) = .ok ⟨flags, name⟩) ∧
    (∀ ei ed es : List Nat, ei.length < 256 → ed.length < 256 → es.length < 256 →
      8 + ei.length + ed.length + es.length ≤ 255 →
      RRERRecord.parse (RRERRecord.record ⟨ei, ed, es⟩) = .ok ⟨ei, ed, es⟩) ∧
    (∀ (flags : Nat) (comps : List (List Nat)), flags < 256 →
      (∀ c ∈ comps, c.length < 256) → RRSLRecord.length comps ≤ 255 →
      RRSLRecord.parse (RRSLRecord.record ⟨comps, flags⟩) = .ok ⟨comps, flags⟩) ∧
    (∀ v : RRTFRecord, v.wfb = true → RRTFRecord.parse (RRTFRecord.record v) = .ok v) :=
  ⟨sp_roundtrip, rr_roundtrip, es_roundtrip, re_roundtrip, pn_roundtrip,
   cl_roundtrip, pl_roundtrip, sf_roundtrip, ce_roundtrip, px_roundtrip,
   nm_roundtrip, er_roundtrip, sl_roundtrip, tf_roundtrip⟩

/-- C2 counterexample: a PX value carrying a nonzero serial number (obtainable
by parsing a 44 byte PX record) does not round trip: record() emits only the
36 byte form, so decoding returns serial number 0. -/
theorem C2_counterexample :
    RRPXRecord.parse (RRPXRecord.record ⟨33060, 1, 0, 0, 1⟩ RRVersion.v109) =
      .ok ⟨33060, 1, 0, 0, 0⟩ ∧
    (⟨33060, 1, 0, 0, 0⟩ : RRPXRecord) ≠ ⟨33060, 1, 0, 0, 1⟩ := by
  constructor
  · decide
  · decide

/-- Witness for C2: the round trip theorem applied at concrete values of every
record type. -/
theorem C2_witness :
    RRSPRecord.parse (RRSPRecord.record ⟨9⟩) = .ok ⟨9⟩ ∧
    RRRRRecord.parse (RRRRRecord.record ⟨137⟩) = .ok ⟨137⟩ ∧
    RRESRecord.parse (RRESRecord.record ⟨3⟩) = .ok ⟨3⟩ ∧
    RRPNRecord.parse (RRPNRecord.record ⟨70000, 5⟩) = .ok ⟨70000, 5⟩ ∧
    RRCLRecord.parse (RRCLRecord.record ⟨4195346⟩) = .ok ⟨4195346⟩ ∧
    RRPLRecord.parse (RRPLRecord.record ⟨26⟩) = .ok ⟨26⟩ ∧
    RRSFRecord.parse (RRSFRecord.record ⟨1, 2, 3⟩) = .ok ⟨1, 2, 3⟩ ∧
    (RRCERecord.record ⟨⟨emptyFlatBag, some 25, none, 0, 137⟩⟩).bind RRCERecord.parse =
      .ok ⟨⟨emptyFlatBag, some 25, none, 0, 137⟩⟩ ∧
    RRPXRecord.parse (RRPXRecord.record ⟨33060, 1, 0, 0, 0⟩ .v109) =
      .ok ⟨33060, 1, 0, 0, 0⟩ ∧
    RRNMRecord.parse (RRNMRecord.record ⟨1, [102, 111, 111]⟩) = .ok ⟨1, [102, 111, 111]⟩ ∧
    RRERRecord.parse (RRERRecord.record ⟨EXT_ID, EXT_DES, EXT_SRC⟩) =
      .ok ⟨EXT_ID, EXT_DES, EXT_SRC⟩ ∧
    RRSLRecord.parse (RRSLRecord.record ⟨[[97, 98], [46], [], [47]], 1⟩) =
      .ok ⟨[[97, 98], [46], [], [47]], 1⟩ ∧
    RRTFRecord.parse (RRTFRecord.record (RRTFRecord.new 14)) = .ok (RRTFRecord.new 14) :=
  ⟨C2_roundtrip.1 9 (by decide),
   C2_roundtrip.2.1 137 (by decide),
   C2_roundtrip.2.2.1 3 (by decide),
   C2_roundtrip.2.2.2.2.1 70000 5 (by decide) (by decide),
   C2_roundtrip.2.2.2.2.2.1 4195346 (by decide),
   C2_roundtrip.2.2.2.2.2.2.1 26 (by decide),
   C2_roundtrip.2.2.2.2.2.2.2.1 1 2 3 (by decide) (by decide) (by decide),
   C2_roundtrip.2.2.2.2.2.2.2.2.1 25 0 137 (by decide) (by decide) (by decide),
   C2_roundtrip.2.2.2.2.2.2.2.2.2.1 33060 1 0 0 (by decide) (by decide) (by decide) (by decide),
   C2_roundtrip.2.2.2.2.2.2.2.2.2.2.1 1 [102, 111, 111] (by decide) (by decide)
     (fun _ => by refine ⟨rfl, rfl, rfl⟩) (by decide),
   C2_roundtrip.2.2.2.2.2.2.2.2.2.2.2.1 EXT_ID EXT_DES EXT_SRC (by decide) (by decide)
     (by decide) (by decide),
   C2_roundtrip.2.2.2.2.2.2.2.2.2.2.2.2.1 1 [[97, 98], [46], [], [47]] (by decide)
     (by decide) (by decide),
   C2_roundtrip.2.2.2.2.2.2.2.2.2.2.2.2.2 (RRTFRecord.new 14) (by decide)⟩

/-- C3 counterexample: the claim asserts that decoding rejects every input
whose big endian copy does not match; the PN decoder accepts a record whose
big endian copy of dev_t_high is 0 while the little endian value is 1. -/
theorem C3_counterexample :
    RRPNRecord.parse ([80, 78, 20, 1] ++ pack32le 1 ++ pack32le 0
      ++ pack32le 0 ++ pack32le 0) = .ok ⟨1, 0⟩ ∧ (1 : Nat) ≠ swab32 0 := by
  constructor
  · decide
  · decide

/-- Witness for C3: the amended theorem applied at concrete inputs; the PN,
PX, CE and SF inputs all carry big endian copies that do not match the byte
swap of their little endian values, yet decode successfully. -/
theorem C3_witness :
    RRCLRecord.record ⟨9⟩ = [67, 76, 12, 1] ++ pack32le 9 ++ (pack32le 9).reverse ∧
    RRCLRecord.parse ([67, 76, 12, 1] ++ pack32le 1 ++ pack32le 2) =
      .error .littleBigMismatch ∧
    RRPNRecord.parse ([80, 78, 20, 1] ++ pack32le 3 ++ pack32le 4
      ++ pack32le 5 ++ pack32le 6) = .ok ⟨3, 5⟩ ∧
    RRPXRecord.parse ([80, 88, 36, 1] ++ pack32le 7 ++ pack32le 8
      ++ pack32le 9 ++ pack32le 10 ++ pack32le 11 ++ pack32le 12
      ++ pack32le 13 ++ pack32le 14) = .ok ⟨7, 9, 11, 13, 0⟩ ∧
    RRCERecord.parse ([67, 69, 28, 1] ++ pack32le 15 ++ pack32le 16
      ++ pack32le 17 ++ pack32le 18 ++ pack32le 19 ++ pack32le 20)
      = .ok ⟨⟨emptyFlatBag, some 15, none, 17, 19⟩⟩ ∧
    RRSFRecord.parse ([83, 70, 21, 1] ++ pack32le 21 ++ pack32le 22
      ++ pack32le 23 ++ pack32le 24 ++ [3]) = .ok ⟨21, 23, 3⟩ := by
  refine ⟨C3_dual_endian.1 9, ?_, ?_, ?_, ?_, ?_⟩
  · exact C3_dual_endian.2.2.2.2.2.2.1 1 2 (by decide) (by decide) (by decide)
  · exact C3_dual_endian.2.2.2.2.2.2.2.2.1 3 4 5 6 (by decide) (by decide) (by decide)
      (by decide)
  · exact C3_dual_endian.2.2.2.2.2.2.2.2.2.1 7 8 9 10 11 12 13 14 (by decide) (by decide)
      (by decide) (by decide)
  · exact C3_dual_endian.2.2.2.2.2.2.2.2.2.2.1 15 16 17 18 19 20 (by decide) (by decide)
      (by decide)
  · exact C3_dual_endian.2.2.2.2.2.2.2.2.2.2.2 21 22 23 24 3 (by decide) (by decide)

/-! ### C7, C8, C10: query and serialization API over entry states -/

theorem slashTerm_append (xs ys : List (List Nat)) :
    slashTerm (xs ++ ys) = slashTerm xs ++ slashTerm ys := by
  simp [slashTerm]

/-- The accumulation loop output always ends in a slash byte when at least one
component went in. -/
theorem slashTerm_ends (cs : List (List Nat)) (h : cs ≠ []) :
    ∃ u, slashTerm cs = u ++ [47] := by
  induction cs with
  | nil => exact absurd rfl h
  | cons c cs ih =>
    by_cases hcs : cs = []
    · subst hcs
      by_cases hc : c = [47]
      · exact ⟨[], by simp [slashTerm, hc]⟩
      · exact ⟨c, by simp [slashTerm, hc]⟩
    · obtain ⟨u, hu⟩ := ih hcs
      refine ⟨(c ++ if c = [47] then [] else [47]) ++ u, ?_⟩
      rw [show (c :: cs) = [c] ++ cs from rfl, slashTerm_append, hu]
      simp [slashTerm]

/-- One record contribution inside symlink_path equals the accumulation loop
over its own components, provided the record is nonempty and its per record
reconstruction is not exactly a slash. -/
theorem str_term (r : RRSLRecord) (hne : r.symlink_components ≠ [])
    (hstr : RRSLRecord.str r ≠ [47]) :
    RRSLRecord.str r ++ (if RRSLRecord.str r = [47] then [] else [47]) =
      slashTerm r.symlink_components := by
  obtain ⟨u, hu⟩ := slashTerm_ends r.symlink_components hne
  rw [if_neg hstr]
  unfold RRSLRecord.str
  rw [hu]
  simp

/-- The per record accumulation of symlink_path flattens to the per component
accumulation over the concatenated component lists. -/
theorem join_records (rs : List RRSLRecord)
    (h : ∀ r ∈ rs, r.symlink_components ≠ [] ∧ RRSLRecord.str r ≠ [47]) :
    (rs.map fun rec => RRSLRecord.str rec
      ++ if RRSLRecord.str rec = [47] then [] else [47]).flatten =
    slashTerm ((rs.map RRSLRecord.symlink_components).flatten) := by
  induction rs with
  | nil => simp [slashTerm]
  | cons r rs ih =>
    have hr := h r (by simp)
    have hrs : ∀ x ∈ rs, x.symlink_components ≠ [] ∧ RRSLRecord.str x ≠ [47] :=
      fun x hx => h x (by simp [hx])
    simp only [List.map_cons, List.flatten_cons, slashTerm_append, ih hrs]
    rw [str_term r hr.1 hr.2]

/-- C7 (corrected): symlink_path fails exactly when the primary entry holds no
SL records or a continuation exists holding none (not when no SL records
exist anywhere, as the claim states); when it succeeds it returns the primary
SL components followed by the continuation SL components joined with a slash
except after a literal slash component, for entries whose SL records each
hold at least one component and none of whose per record reconstructions is
exactly a slash. -/
theorem C7_symlink_path (e : RockRidgeEntry) :
    ((∃ msg, e.symlink_path = .error msg) ↔
      (e.bag.sl_records = [] ∨ (e.ce_record.isSome ∧ contSLRecords e = []))) ∧
    (¬(e.bag.sl_records = [] ∨ (e.ce_record.isSome ∧ contSLRecords e = [])) →
      (∀ r ∈ e.bag.sl_records ++ contSLRecords e,
        r.symlink_components ≠ [] ∧ RRSLRecord.str r ≠ [47]) →
      e.symlink_path = .ok (specSymlinkJoin
        (((e.bag.sl_records ++ contSLRecords e).map RRSLRecord.symlink_components).flatten))) := by
  constructor
  · by_cases hc : e.bag.sl_records = [] ∨ (e.ce_record.isSome ∧ contSLRecords e = [])
    · simp [RockRidgeEntry.symlink_path, hc]
    · simp [RockRidgeEntry.symlink_path, hc]
  · intro hc2 hwf
    unfold RockRidgeEntry.symlink_path
    rw [if_neg hc2]
    rw [join_records _ hwf]
    rfl

/-- C7 counterexample: an entry whose only SL record lives in the continuation
is a symlink (SL records exist), yet symlink_path raises, because the guard
demands a primary SL record. -/
theorem C7_counterexample :
    RockRidgeEntry.symlink_path
      ⟨emptyFlatBag,
       some ⟨⟨{ emptyFlatBag with sl_records := [⟨[[97]], 0⟩] }, none, none, 0, 0⟩⟩,
       none, none⟩ = .error .entryNotSymlink ∧
    RockRidgeEntry.is_symlink
      ⟨emptyFlatBag,
       some ⟨⟨{ emptyFlatBag with sl_records := [⟨[[97]], 0⟩] }, none, none, 0, 0⟩⟩,
       none, none⟩ = true := by
  constructor
  · decide
  · decide

/-- Witness for C7: the amended theorem applied at an entry holding one SL
record inline and one in its continuation. -/
theorem C7_witness :
    RockRidgeEntry.symlink_path
      ⟨{ emptyFlatBag with sl_records := [⟨[[97], [98]], 0⟩] },
       some ⟨⟨{ emptyFlatBag with sl_records := [⟨[[99]], 0⟩] }, none, none, 0, 0⟩⟩,
       none, none⟩ =
      .ok (specSymlinkJoin [[97], [98], [99]]) :=
  (C7_symlink_path _).2 (by decide) (by decide)

/-- C8 (confirmed): serialization emits the present records in the canonical
order SP, RR, NM, PX, all SL records in list order, TF, CL, PL, RE, CE, ER,
absent fields contributing nothing; insertion order cannot influence the
output because the entry stores each record in a named slot.  The hypothesis
asks the continuation, if any, to have an extent assigned, since the CE
encoder reads its extent location. -/
theorem C8_canonical_order (bag : RRFlatBag) (ce : Option RRCERecord)
    (hce : ∀ c, ce = some c → (c.continuation_entry.new_extent_loc.isSome ∨
      c.continuation_entry.orig_extent_loc.isSome)) :
    recordBase bag ce = .ok (canonicalPieces bag ce).flatten := by
  cases ce with
  | none =>
    simp [recordBase, canonicalPieces]
  | some c =>
    have hex : ∃ loc, c.continuation_entry.extent_location = .ok loc := by
      rcases hce c rfl with h | h
      · rcases Option.isSome_iff_exists.mp h with ⟨n, hn⟩
        exact ⟨n, by simp [RRContinuation.extent_location, hn]⟩
      · rcases Option.isSome_iff_exists.mp h with ⟨n, hn⟩
        cases hnew : c.continuation_entry.new_extent_loc with
        | none => exact ⟨n, by simp [RRContinuation.extent_location, hnew, hn]⟩
        | some m => exact ⟨m, by simp [RRContinuation.extent_location, hnew]⟩
    obtain ⟨loc, hloc⟩ := hex
    have hrec : ∃ bs, c.record = .ok bs := by
      unfold RRCERecord.record
      rw [hloc]
      exact ⟨_, rfl⟩
    obtain ⟨bs, hbs⟩ := hrec
    simp [recordBase, canonicalPieces, hbs]

/-- Witness for C8: the canonical order theorem applied at an entry holding an
NM, a PX, an SL and a continuation with an assigned extent. -/
theorem C8_witness :
    recordBase
      { emptyFlatBag with
        nm_record := some ⟨0, [102, 111, 111]⟩,
        px_record := some ⟨33060, 1, 0, 0, 0⟩,
        sl_records := [⟨[[97]], 0⟩] }
      (some ⟨⟨emptyFlatBag, some 25, none, 0, 137⟩⟩) =
      .ok (canonicalPieces
        { emptyFlatBag with
          nm_record := some ⟨0, [102, 111, 111]⟩,
          px_record := some ⟨33060, 1, 0, 0, 0⟩,
          sl_records := [⟨[[97]], 0⟩] }
        (some ⟨⟨emptyFlatBag, some 25, none, 0, 137⟩⟩)).flatten :=
  C8_canonical_order _ _ (fun c hc => by cases hc; exact Or.inr rfl)

/-- C10 (confirmed): name() has no raise path on an initialized entry (the
embedding is a total function into byte strings) and returns the empty string
when neither the primary entry nor the continuation holds an NM record,
whereas symlink_path raises when the primary entry holds no SL records, in
particular when no SL records exist at all. -/
theorem C10_name_total (e : RockRidgeEntry) :
    (e.bag.nm_record = none → contNMRecord e = none → e.name = []) ∧
    (e.bag.sl_records = [] → e.symlink_path = .error .entryNotSymlink) := by
  constructor
  · intro h1 h2
    simp [RockRidgeEntry.name, h1, h2]
  · intro h1
    simp [RockRidgeEntry.symlink_path, h1]

/-- Witness for C10: the theorem applied at the empty entry. -/
theorem C10_witness :
    RockRidgeEntry.name ⟨emptyFlatBag, none, none, none⟩ = [] ∧
    RockRidgeEntry.symlink_path ⟨emptyFlatBag, none, none, none⟩ =
      .error .entryNotSymlink :=
  ⟨(C10_name_total _).1 rfl rfl, (C10_name_total _).2 rfl⟩

theorem parseCtl_step_left (record : List Nat) (root : Bool) (offset : Nat) (left : Int)
    (su : Nat) (upd : RRFlatBag → Option RRCERecord → RRFlatBag × Option RRCERecord)
    (h : parseCtl record root offset left = .step su upd) : ¬(left < 4) := by
  intro hlt
  by_cases h0 : left = 0
  · unfold parseCtl at h
    rw [if_pos h0] at h
    cases h
  · by_cases h1 : left = 1
    · unfold parseCtl at h
      rw [if_neg h0, if_pos h1] at h
      cases hget : record.get? offset with
      | none => rw [hget] at h; simp at h
      | some b =>
        rw [hget] at h
        by_cases hb : b ≠ 0
        · simp [hb] at h
        · simp [hb] at h
    · unfold parseCtl at h
      rw [if_neg h0, if_neg h1, if_pos hlt] at h
      cases h

theorem parseLoop_diverge (record : List Nat) (root : Bool) (offset : Nat) (left : Int)
    (upd : RRFlatBag → Option RRCERecord → RRFlatBag × Option RRCERecord)
    (h : parseCtl record root offset left = .step 0 upd) :
    ∀ (fuel : Nat) (bag : RRFlatBag) (ce : Option RRCERecord),
      parseLoop record root fuel bag ce offset left = .outOfFuel := by
  intro fuel
  induction fuel with
  | zero => intro bag ce; rfl
  | succ f ih =>
    intro bag ce
    rw [parseLoop, h]
    simpa using ih (upd bag ce).1 (upd bag ce).2

theorem parseLoop_stable (record : List Nat) (root : Bool) :
    ∀ (n : Nat) (left : Int), left.toNat = n →
      ∀ (offset : Nat) (bag : RRFlatBag) (ce : Option RRCERecord) (fuel : Nat),
        n + 1 ≤ fuel →
        parseLoop record root fuel bag ce offset left =
        parseLoop record root (n + 1) bag ce offset left := by
  intro n
  induction n using Nat.strong_induction_on with
  | _ n ih =>
    intro left hln offset bag ce fuel hfuel
    obtain ⟨f, rfl⟩ : ∃ f, fuel = f + 1 := ⟨fuel - 1, by omega⟩
    cases hctl : parseCtl record root offset left with
    | finish => rw [parseLoop, parseLoop, hctl]
    | fail e => rw [parseLoop, parseLoop, hctl]
    | step su upd =>
      rcases Nat.eq_zero_or_pos su with hsu | hsu
      · subst hsu
        rw [parseLoop, parseLoop, hctl]
        simp only [Nat.add_zero, Nat.cast_zero, sub_zero]
        rw [parseLoop_diverge record root offset left upd hctl,
            parseLoop_diverge record root offset left upd hctl]
      · have hge : ¬(left < 4) := parseCtl_step_left record root offset left su upd hctl
        have hm : (left - (su : Int)).toNat < n := by omega
        rw [parseLoop, parseLoop, hctl]
        simp only [Nat.add_zero, Nat.cast_zero, sub_zero]
        rw [ih (left - (su : Int)).toNat hm (left - (su : Int)) rfl (offset + su)
              (upd bag ce).1 (upd bag ce).2 f (by omega),
            ih (left - (su : Int)).toNat hm (left - (su : Int)) rfl (offset + su)
              (upd bag ce).1 (upd bag ce).2 n (by omega)]

theorem parseLoop_outOfFuel_zero (record : List Nat) (root : Bool) :
    ∀ (fuel offset : Nat) (left : Int) (bag : RRFlatBag) (ce : Option RRCERecord),
      left.toNat < fuel →
      parseLoop record root fuel bag ce offset left = .outOfFuel →
      ∃ (o : Nat) (l : Int)
        (upd : RRFlatBag → Option RRCERecord → RRFlatBag × Option RRCERecord),
        parseCtl record root o l = .step 0 upd := by
  intro fuel
  induction fuel with
  | zero => intro offset left bag ce hf; omega
  | succ f ih =>
    intro offset left bag ce hf hrun
    rw [parseLoop] at hrun
    cases hctl : parseCtl record root offset left with
    | finish => rw [hctl] at hrun; simp at hrun
    | fail e => rw [hctl] at hrun; simp at hrun
    | step su upd =>
      rw [hctl] at hrun
      simp only at hrun
      rcases Nat.eq_zero_or_pos su with hsu | hsu
      · exact ⟨offset, left, upd, hsu ▸ hctl⟩
      · have hge := parseCtl_step_left record root offset left su upd hctl
        exact ih (offset + su) (left - (su : Int)) (upd bag ce).1 (upd bag ce).2
          (by omega) hrun

theorem parseLoop_reach_terminates (record : List Nat) (root : Bool) :
    ∀ (fuel offset : Nat) (left : Int) (bag : RRFlatBag) (ce : Option RRCERecord),
      left.toNat < fuel →
      (∀ (o : Nat) (l : Int) (su : Nat)
          (upd : RRFlatBag → Option RRCERecord → RRFlatBag × Option RRCERecord),
        ParseReach record root offset left o l →
        parseCtl record root o l = .step su upd → 1 ≤ su) →
      parseLoop record root fuel bag ce offset left ≠ .outOfFuel := by
  intro fuel
  induction fuel with
  | zero =>
    intro offset left bag ce hf
    omega
  | succ f ih =>
    intro offset left bag ce hf hsu
    cases hctl : parseCtl record root offset left with
    | finish =>
      rw [parseLoop, hctl]
      simp
    | fail e =>
      rw [parseLoop, hctl]
      simp
    | step su upd =>
      rw [parseLoop, hctl]
      have h1 : 1 ≤ su := hsu offset left su upd (ParseReach.refl offset left) hctl
      have h4 := parseCtl_step_left record root offset left su upd hctl
      exact ih (offset + su) (left - su) (upd bag ce).1 (upd bag ce).2 (by omega)
        (fun o l su' upd' hr hc =>
          hsu o l su' upd' (ParseReach.step offset left su upd o l hctl hr) hc)

/-- C9: the _parse loop terminates on every run in which each sub-record it
actually dispatches declares su_len at least 1: with fuel exceeding the
remaining byte count, the loop cannot run out of fuel when every cursor state
it visits that dispatches a record declares a positive su_len, because each
iteration decreases the remaining-byte counter by that su_len.  The
precondition is necessary: the four-byte input PD/su_len 0 never advances the
cursor, so _parse on it loops forever at every fuel. -/
theorem C9_parse_termination :
    (∀ (record : List Nat) (root : Bool) (fuel offset : Nat) (left : Int)
        (bag : RRFlatBag) (ce : Option RRCERecord),
      left.toNat < fuel →
      (∀ (o : Nat) (l : Int) (su : Nat)
          (upd : RRFlatBag → Option RRCERecord → RRFlatBag × Option RRCERecord),
        ParseReach record root offset left o l →
        parseCtl record root o l = CtlRes.step su upd → 1 ≤ su) →
      parseLoop record root fuel bag ce offset left ≠ ParseOutcome.outOfFuel) ∧
    (∀ fuel : Nat, parseFuel [80, 68, 0, 1] 0 false fuel = ParseOutcome.outOfFuel) := by
  constructor
  · intro record root fuel offset left bag ce hf hsu
    exact parseLoop_reach_terminates record root fuel offset left bag ce hf hsu
  · intro fuel
    unfold parseFuel
    exact parseLoop_diverge [80, 68, 0, 1] false 0 4 (fun bag ce => (bag, ce)) rfl
      fuel emptyFlatBag none

/-- C9 witness: on the four-byte PD record declaring su_len 4, every
dispatched state declares a positive su_len (the run visits only the start
state, which steps by 4, and the terminal state), so the loop does not run
out of fuel; on the PD record declaring su_len 0, it does. -/
theorem C9_witness :
    parseLoop [80, 68, 4, 1] false 5 emptyFlatBag none 0 4 ≠ ParseOutcome.outOfFuel ∧
    parseFuel [80, 68, 0, 1] 0 false 5 = ParseOutcome.outOfFuel := by
  constructor
  · refine C9_parse_termination.1 [80, 68, 4, 1] false 5 0 4 emptyFlatBag none (by decide)
      (fun o l su upd hreach hctl => ?_)
    have h04 : parseCtl [80, 68, 4, 1] false 0 4 =
        CtlRes.step 4 (fun bag ce => (bag, ce)) := rfl
    have h40 : parseCtl [80, 68, 4, 1] false (0 + 4) ((4 : Int) - ((4 : Nat) : Int)) =
        CtlRes.finish := rfl
    cases hreach with
    | refl =>
      rw [h04] at hctl
      cases hctl
      decide
    | step _ _ su0 upd0 _ _ hc hrest =>
      rw [h04] at hc
      cases hc
      cases hrest with
      | refl =>
        rw [h40] at hctl
        cases hctl
      | step _ _ su2 upd2 _ _ hc2 hrest2 =>
        rw [h40] at hc2
        cases hc2
  · exact C9_parse_termination.2 5

/-- C5: new() with version 1.12 budgets the PX record at the 36-byte 1.09
length (line 1805 calls RRPXRecord.length() with no version) and the entry
then emits the 36-byte PX form (line 1589 calls record() with no version), so
the emitted and budgeted PX for 1.12 is not the 44-byte form the claim
states; the 44-byte form itself, which record("1.12") would produce, still
packs 36 into its su_len byte. -/
theorem C5_px_version :
    Except.map NewResult.estimate
      (RockRidge.new false (some [102, 111, 111]) false none RRVersion.v112
        false false false 34)
      = Except.ok (34 + RRNMRecord.length [102, 111, 111]
          + RRPXRecord.length RRVersion.v109 + RRTFRecord.length TF_FLAGS) ∧
    Except.map List.length
      (Except.bind
        (RockRidge.new false (some [102, 111, 111]) false none RRVersion.v112
          false false false 34)
        (fun r => r.entry.record)) = Except.ok 70 ∧
    Except.map (fun b => (b.drop 8).take 36)
      (Except.bind
        (RockRidge.new false (some [102, 111, 111]) false none RRVersion.v112
          false false false 34)
        (fun r => r.entry.record))
      = Except.ok ((RRPXRecord.newRec false none).record RRVersion.v109) ∧
    ((RRPXRecord.newRec false none).record RRVersion.v112).length
      = RRPXRecord.length RRVersion.v112 ∧
    ((RRPXRecord.newRec false none).record RRVersion.v112).getD 2 0
      = RRPXRecord.length RRVersion.v109 := by
  exact ⟨by decide, by decide, by decide, by decide, by decide⟩

/-- C6: on an entry freshly built by new() with the relocated-child flag,
child_link_block_num() does not raise: it returns the placeholder block 0
that RRCLRecord.new stored (the FIXME at rockridge.py line 990), and only
after the allocator sets the child link and update_child_link() runs does it
return the assigned block number. -/
theorem C6_child_link :
    Except.bind
      (RockRidge.new false (some [102, 111, 111]) true none RRVersion.v109
        true false false 34)
      (fun r => r.entry.child_link_block_num) = Except.ok 0 ∧
    Except.bind
      (RockRidge.new false (some [102, 111, 111]) true none RRVersion.v109
        true false false 34)
      (fun r => Except.bind
        (RockRidgeEntry.update_child_link { r.entry with child_link := some 26 })
        (fun e2 => e2.child_link_block_num)) = Except.ok 26 := by
  exact ⟨by decide, by decide⟩

theorem pySlice_zero_length_le (l : List Nat) (k : Int) (hk : 0 ≤ k) :
    (pySlice l 0 k).length ≤ k.toNat := by
  have h0 : pyBound l.length 0 = 0 := by simp [pyBound]
  have hb : pyBound l.length k ≤ k.toNat := by
    unfold pyBound
    rw [if_neg (by omega)]
    omega
  unfold pySlice
  rw [h0]
  simp [List.length_take]
  omega

theorem placeRecord_fit (st : NewSt) (l : Nat) (setI setC : RRFlatBag → RRFlatBag)
    (hfit : st.thisLen + l ≤ 254) :
    placeRecord st l setI setC =
      .ok { st with bag := setI st.bag, thisLen := st.thisLen + l } := by
  unfold placeRecord
  rw [if_neg (by omega)]

theorem placeRecord_ce (st : NewSt) (l : Nat) (setI setC : RRFlatBag → RRFlatBag)
    (h : st.hasCE = true) :
    ∃ st', placeRecord st l setI setC = .ok st' ∧ st'.hasCE = true ∧
      (st'.thisLen = st.thisLen ∨ (st'.thisLen = st.thisLen + l ∧ st'.thisLen ≤ 254)) := by
  unfold placeRecord
  by_cases hgt : st.thisLen + l > 254
  · refine ⟨{ st with cont := setC st.cont, contLen := st.contLen + l }, ?_, h, Or.inl rfl⟩
    rw [if_pos hgt, h]
    simp
  · refine ⟨{ st with bag := setI st.bag, thisLen := st.thisLen + l },
      by rw [if_neg hgt], h, Or.inr ⟨rfl, ?_⟩⟩
    show st.thisLen + l ≤ 254
    omega

theorem stepSP_ce (root : Bool) (st : NewSt) (h : st.hasCE = true) :
    ∃ st', stepSP root st = .ok st' ∧ st'.hasCE = true ∧
      st'.thisLen ≤ st.thisLen + RRSPRecord.length ∧
      (st'.thisLen ≤ st.thisLen ∨ st'.thisLen ≤ 254) := by
  cases root with
  | false => exact ⟨st, rfl, h, by omega, Or.inl (le_refl _)⟩
  | true =>
    obtain ⟨st', he, hce, hd⟩ := placeRecord_ce st RRSPRecord.length
      (fun b => { b with sp_record := some ⟨0⟩ }) (fun b => { b with sp_record := some ⟨0⟩ }) h
    exact ⟨st', he, hce, by omega, by omega⟩

theorem stepRR_ce (v : RRVersion) (st : NewSt) (h : st.hasCE = true) :
    ∃ st', stepRR v st = .ok st' ∧ st'.hasCE = true ∧
      st'.thisLen ≤ st.thisLen + RRRRRecord.length ∧
      (st'.thisLen ≤ st.thisLen ∨ st'.thisLen ≤ 254) := by
  cases v with
  | v112 => exact ⟨st, rfl, h, by omega, Or.inl (le_refl _)⟩
  | v109 =>
    obtain ⟨st', he, hce, hd⟩ := placeRecord_ce st RRRRRecord.length
      (fun b => { b with rr_record := some ⟨0⟩ }) (fun b => { b with rr_record := some ⟨0⟩ }) h
    exact ⟨st', he, hce, by omega, by omega⟩

theorem stepNM_ce (rr_name : Option (List Nat)) (st : NewSt) (h : st.hasCE = true)
    (hlen : st.thisLen ≤ 249) :
    ∃ st', stepNM rr_name st = .ok st' ∧ st'.hasCE = true ∧ st'.thisLen ≤ 254 := by
  cases rr_name with
  | none => exact ⟨st, rfl, h, by omega⟩
  | some name =>
    unfold stepNM
    dsimp only
    by_cases hgt : st.thisLen + RRNMRecord.length name > 254
    · rw [if_pos hgt, h]
      simp only [if_pos rfl]
      refine ⟨_, rfl, ?_, ?_⟩
      · simp [appendRR, h]
      · have hsl := pySlice_zero_length_le name (254 - (st.thisLen : Int) - 5) (by omega)
        simp only [appendRR, RRNMRecord.length]
        omega
    · rw [if_neg hgt]
      refine ⟨_, rfl, ?_, ?_⟩
      · simp [appendRR, h]
      · simp only [appendRR]
        omega

theorem stepPX_ce (isdir : Bool) (sp : Option (List Nat)) (st : NewSt) (h : st.hasCE = true) :
    ∃ st', stepPX isdir sp st = .ok st' ∧ st'.hasCE = true ∧
      (st'.thisLen ≤ st.thisLen ∨ st'.thisLen ≤ 254) := by
  obtain ⟨st', he, hce, hd⟩ := placeRecord_ce st (RRPXRecord.length .v109)
    (fun b => { b with px_record := some (RRPXRecord.newRec isdir sp) })
    (fun b => { b with px_record := some (RRPXRecord.newRec isdir sp) }) h
  refine ⟨appendRR st' 0, ?_, ?_, ?_⟩
  · unfold stepPX
    rw [he]
  · simp [appendRR, hce]
  · simp only [appendRR]
    omega

theorem stepTF_ce (st : NewSt) (h : st.hasCE = true) :
    ∃ st', stepTF st = .ok st' ∧ st'.hasCE = true ∧
      (st'.thisLen ≤ st.thisLen ∨ st'.thisLen ≤ 254) := by
  obtain ⟨st', he, hce, hd⟩ := placeRecord_ce st (RRTFRecord.length TF_FLAGS)
    (fun b => { b with tf_record := some (RRTFRecord.new TF_FLAGS) })
    (fun b => { b with tf_record := some (RRTFRecord.new TF_FLAGS) }) h
  refine ⟨appendRR st' 7, ?_, ?_, ?_⟩
  · unfold stepTF
    rw [he]
  · simp [appendRR, hce]
  · simp only [appendRR]
    omega

theorem stepCL_ce (b : Bool) (st : NewSt) (h : st.hasCE = true) :
    ∃ st', stepCL b st = .ok st' ∧ st'.hasCE = true ∧
      (st'.thisLen ≤ st.thisLen ∨ st'.thisLen ≤ 254) := by
  cases b with
  | false => exact ⟨st, rfl, h, Or.inl (le_refl _)⟩
  | true =>
    obtain ⟨st', he, hce, hd⟩ := placeRecord_ce st RRCLRecord.length
      (fun b => { b with cl_record := some ⟨0⟩ }) (fun b => { b with cl_record := some ⟨0⟩ }) h
    exact ⟨st', he, hce, by omega⟩

theorem stepRE_ce (b : Bool) (st : NewSt) (h : st.hasCE = true) :
    ∃ st', stepRE b st = .ok st' ∧ st'.hasCE = true ∧
      (st'.thisLen ≤ st.thisLen ∨ st'.thisLen ≤ 254) := by
  cases b with
  | false => exact ⟨st, rfl, h, Or.inl (le_refl _)⟩
  | true =>
    obtain ⟨st', he, hce, hd⟩ := placeRecord_ce st RRRERecord.length
      (fun b => { b with re_record := some ⟨⟩ }) (fun b => { b with re_record := some ⟨⟩ }) h
    exact ⟨st', he, hce, by omega⟩

theorem stepPL_ce (b : Bool) (st : NewSt) (h : st.hasCE = true) :
    ∃ st', stepPL b st = .ok st' ∧ st'.hasCE = true ∧
      (st'.thisLen ≤ st.thisLen ∨ st'.thisLen ≤ 254) := by
  cases b with
  | false => exact ⟨st, rfl, h, Or.inl (le_refl _)⟩
  | true =>
    obtain ⟨st', he, hce, hd⟩ := placeRecord_ce st RRPLRecord.length
      (fun b => { b with pl_record := some ⟨0⟩ }) (fun b => { b with pl_record := some ⟨0⟩ }) h
    exact ⟨st', he, hce, by omega⟩

theorem stepER_ce (root : Bool) (st : NewSt) (h : st.hasCE = true) :
    ∃ st', stepER root st = .ok st' ∧ st'.hasCE = true ∧
      (st'.thisLen ≤ st.thisLen ∨ st'.thisLen ≤ 254) := by
  cases root with
  | false => exact ⟨st, rfl, h, Or.inl (le_refl _)⟩
  | true =>
    obtain ⟨st', he, hce, hd⟩ := placeRecord_ce st (RRERRecord.length EXT_ID EXT_DES EXT_SRC)
      (fun b => { b with er_record := some ⟨EXT_ID, EXT_DES, EXT_SRC⟩ })
      (fun b => { b with er_record := some ⟨EXT_ID, EXT_DES, EXT_SRC⟩ }) h
    exact ⟨st', he, hce, by omega⟩

theorem stepSP_fit (root : Bool) (st : NewSt)
    (hfit : st.thisLen + (if root then RRSPRecord.length else 0) ≤ 254) :
    ∃ st', stepSP root st = .ok st' ∧ st'.hasCE = st.hasCE ∧
      st'.thisLen = st.thisLen + (if root then RRSPRecord.length else 0) := by
  cases root with
  | false => exact ⟨st, rfl, rfl, by simp⟩
  | true =>
    refine ⟨_, placeRecord_fit st RRSPRecord.length
      (fun b => { b with sp_record := some ⟨0⟩ }) (fun b => { b with sp_record := some ⟨0⟩ })
      (by simpa using hfit), rfl, by simp⟩

theorem stepRR_fit (v : RRVersion) (st : NewSt)
    (hfit : st.thisLen + (if v = .v109 then RRRRRecord.length else 0) ≤ 254) :
    ∃ st', stepRR v st = .ok st' ∧ st'.hasCE = st.hasCE ∧
      st'.thisLen = st.thisLen + (if v = .v109 then RRRRRecord.length else 0) := by
  cases v with
  | v112 => exact ⟨st, rfl, rfl, by simp⟩
  | v109 =>
    refine ⟨_, placeRecord_fit st RRRRRecord.length
      (fun b => { b with rr_record := some ⟨0⟩ }) (fun b => { b with rr_record := some ⟨0⟩ })
      (by simpa using hfit), rfl, by simp⟩

theorem stepNM_fit (rr_name : Option (List Nat)) (st : NewSt) (c : Nat)
    (hc : (match rr_name with | some n => RRNMRecord.length n | none => 0) = c)
    (hfit : st.thisLen + c ≤ 254) :
    ∃ st', stepNM rr_name st = .ok st' ∧ st'.hasCE = st.hasCE ∧
      st'.thisLen = st.thisLen + c := by
  cases rr_name with
  | none =>
    refine ⟨st, rfl, rfl, ?_⟩
    have hc' : 0 = c := hc
    omega
  | some name =>
    have hc' : RRNMRecord.length name = c := hc
    unfold stepNM
    dsimp only
    rw [if_neg (by omega)]
    refine ⟨_, rfl, by simp [appendRR], ?_⟩
    simp only [appendRR]
    omega

theorem stepPX_fit (isdir : Bool) (sp : Option (List Nat)) (st : NewSt)
    (hfit : st.thisLen + RRPXRecord.length .v109 ≤ 254) :
    ∃ st', stepPX isdir sp st = .ok st' ∧ st'.hasCE = st.hasCE ∧
      st'.thisLen = st.thisLen + RRPXRecord.length .v109 := by
  refine ⟨appendRR { st with
      bag := { st.bag with px_record := some (RRPXRecord.newRec isdir sp) }
      thisLen := st.thisLen + RRPXRecord.length .v109 } 0, ?_, ?_, ?_⟩
  · unfold stepPX
    rw [placeRecord_fit st (RRPXRecord.length .v109)
      (fun b => { b with px_record := some (RRPXRecord.newRec isdir sp) })
      (fun b => { b with px_record := some (RRPXRecord.newRec isdir sp) }) hfit]
  · simp [appendRR]
  · simp [appendRR]

theorem stepTF_fit (st : NewSt)
    (hfit : st.thisLen + RRTFRecord.length TF_FLAGS ≤ 254) :
    ∃ st', stepTF st = .ok st' ∧ st'.hasCE = st.hasCE ∧
      st'.thisLen = st.thisLen + RRTFRecord.length TF_FLAGS := by
  refine ⟨appendRR { st with
      bag := { st.bag with tf_record := some (RRTFRecord.new TF_FLAGS) }
      thisLen := st.thisLen + RRTFRecord.length TF_FLAGS } 7, ?_, ?_, ?_⟩
  · unfold stepTF
    rw [placeRecord_fit st (RRTFRecord.length TF_FLAGS)
      (fun b => { b with tf_record := some (RRTFRecord.new TF_FLAGS) })
      (fun b => { b with tf_record := some (RRTFRecord.new TF_FLAGS) }) hfit]
  · simp [appendRR]
  · simp [appendRR]

theorem stepCL_fit (b : Bool) (st : NewSt)
    (hfit : st.thisLen + (if b then RRCLRecord.length else 0) ≤ 254) :
    ∃ st', stepCL b st = .ok st' ∧ st'.hasCE = st.hasCE ∧
      st'.thisLen = st.thisLen + (if b then RRCLRecord.length else 0) := by
  cases b with
  | false => exact ⟨st, rfl, rfl, by simp⟩
  | true =>
    refine ⟨_, placeRecord_fit st RRCLRecord.length
      (fun b => { b with cl_record := some ⟨0⟩ }) (fun b => { b with cl_record := some ⟨0⟩ })
      (by simpa using hfit), rfl, by simp⟩

theorem stepRE_fit (b : Bool) (st : NewSt)
    (hfit : st.thisLen + (if b then RRRERecord.length else 0) ≤ 254) :
    ∃ st', stepRE b st = .ok st' ∧ st'.hasCE = st.hasCE ∧
      st'.thisLen = st.thisLen + (if b then RRRERecord.length else 0) := by
  cases b with
  | false => exact ⟨st, rfl, rfl, by simp⟩
  | true =>
    refine ⟨_, placeRecord_fit st RRRERecord.length
      (fun b => { b with re_record := some ⟨⟩ }) (fun b => { b with re_record := some ⟨⟩ })
      (by simpa using hfit), rfl, by simp⟩

theorem stepPL_fit (b : Bool) (st : NewSt)
    (hfit : st.thisLen + (if b then RRPLRecord.length else 0) ≤ 254) :
    ∃ st', stepPL b st = .ok st' ∧ st'.hasCE = st.hasCE ∧
      st'.thisLen = st.thisLen + (if b then RRPLRecord.length else 0) := by
  cases b with
  | false => exact ⟨st, rfl, rfl, by simp⟩
  | true =>
    refine ⟨_, placeRecord_fit st RRPLRecord.length
      (fun b => { b with pl_record := some ⟨0⟩ }) (fun b => { b with pl_record := some ⟨0⟩ })
      (by simpa using hfit), rfl, by simp⟩

theorem stepER_fit (root : Bool) (st : NewSt)
    (hfit : st.thisLen + (if root then RRERRecord.length EXT_ID EXT_DES EXT_SRC else 0) ≤ 254) :
    ∃ st', stepER root st = .ok st' ∧ st'.hasCE = st.hasCE ∧
      st'.thisLen = st.thisLen
        + (if root then RRERRecord.length EXT_ID EXT_DES EXT_SRC else 0) := by
  cases root with
  | false => exact ⟨st, rfl, rfl, by simp⟩
  | true =>
    refine ⟨_, placeRecord_fit st (RRERRecord.length EXT_ID EXT_DES EXT_SRC)
      (fun b => { b with er_record := some ⟨EXT_ID, EXT_DES, EXT_SRC⟩ })
      (fun b => { b with er_record := some ⟨EXT_ID, EXT_DES, EXT_SRC⟩ })
      (by simpa using hfit), rfl, by simp⟩

/-- C1: amended layout budget.  For inputs with no symlink and a starting
directory record length of at most 209, new() succeeds, the running directory
record length never exceeds 254 bytes before the final even padding step, and
a continuation entry is created exactly when the all inline estimate exceeds
254.  The original claim over all inputs is false: see C1_counterexample,
where the CE pre-allocation itself pushes the length to 258. -/
theorem C1_layout_budget (root : Bool) (rr_name : Option (List Nat)) (isdir : Bool)
    (rr_version : RRVersion) (c1 c2 c3 : Bool) (curr : Nat) (hcurr : curr ≤ 209) :
    ∃ r : NewResult,
      RockRidge.new root rr_name isdir none rr_version c1 c2 c3 curr = .ok r ∧
      r.prePadLen ≤ 254 ∧
      (r.entry.ce_record.isSome ↔ 254 < r.estimate) := by
  have lSP : RRSPRecord.length = 7 := rfl
  have lRR : RRRRRecord.length = 5 := rfl
  have lCE : RRCERecord.length = 28 := rfl
  unfold RockRidge.new
  dsimp only
  by_cases h254 : 254 < curr + (if root then RRSPRecord.length else 0)
      + (if rr_version = RRVersion.v109 then RRRRRecord.length else 0)
      + (match rr_name with | some n => RRNMRecord.length n | none => 0)
      + RRPXRecord.length RRVersion.v109 + 0 + RRTFRecord.length TF_FLAGS
      + (if c1 then RRCLRecord.length else 0)
      + (if c2 then RRRERecord.length else 0)
      + (if c3 then RRPLRecord.length else 0)
      + (if root then RRERRecord.length EXT_ID EXT_DES EXT_SRC else 0)
  · simp only [h254, decide_True, if_true]
    obtain ⟨st1, e1, hce1, ha1, hb1⟩ :=
      stepSP_ce root ⟨emptyFlatBag, emptyFlatBag, true, curr + RRCERecord.length, 0, false⟩ rfl
    simp only [e1, Except.bind]
    obtain ⟨st2, e2, hce2, ha2, hb2⟩ := stepRR_ce rr_version st1 hce1
    simp only [e2, Except.bind]
    obtain ⟨st3, e3, hce3, hb3⟩ := stepNM_ce rr_name st2 hce2 (by
      show st2.thisLen ≤ 249
      have h0 : (⟨emptyFlatBag, emptyFlatBag, true, curr + RRCERecord.length, 0,
        false⟩ : NewSt).thisLen = curr + RRCERecord.length := rfl
      omega)
    simp only [e3, Except.bind]
    obtain ⟨st4, e4, hce4, hb4⟩ := stepPX_ce isdir none st3 hce3
    simp only [e4, Except.bind]
    have e5 : stepSL none st4 = .ok st4 := rfl
    simp only [e5, Except.bind]
    obtain ⟨st6, e6, hce6, hb6⟩ := stepTF_ce st4 hce4
    simp only [e6, Except.bind]
    obtain ⟨st7, e7, hce7, hb7⟩ := stepCL_ce c1 st6 hce6
    simp only [e7, Except.bind]
    obtain ⟨st8, e8, hce8, hb8⟩ := stepRE_ce c2 st7 hce7
    simp only [e8, Except.bind]
    obtain ⟨st9, e9, hce9, hb9⟩ := stepPL_ce c3 st8 hce8
    simp only [e9, Except.bind]
    obtain ⟨st10, e10, hce10, hb10⟩ := stepER_ce root st9 hce9
    simp only [e10, Except.bind]
    refine ⟨_, rfl, ?_, ?_⟩
    · show st10.thisLen ≤ 254
      have h0 : (⟨emptyFlatBag, emptyFlatBag, true, curr + RRCERecord.length, 0,
        false⟩ : NewSt).thisLen = curr + RRCERecord.length := rfl
      omega
    · show (some _).isSome ↔ _
      simp only [Option.isSome]
      exact iff_of_true trivial h254
  · simp only [h254, decide_False, if_false]
    cases rr_name with
    | none =>
      dsimp only at h254 ⊢
      obtain ⟨st1, e1, hce1, hl1⟩ :=
        stepSP_fit root ⟨emptyFlatBag, emptyFlatBag, false, curr + 0, 0, false⟩ (by
          show curr + 0 + (if root then RRSPRecord.length else 0) ≤ 254
          omega)
      simp only [e1, Except.bind]
      obtain ⟨st2, e2, hce2, hl2⟩ := stepRR_fit rr_version st1 (by
        have h0 : (⟨emptyFlatBag, emptyFlatBag, false, curr + 0, 0,
          false⟩ : NewSt).thisLen = curr + 0 := rfl
        omega)
      simp only [e2, Except.bind]
      obtain ⟨st3, e3, hce3, hl3⟩ := stepNM_fit none st2 0 rfl (by
        have h0 : (⟨emptyFlatBag, emptyFlatBag, false, curr + 0, 0,
          false⟩ : NewSt).thisLen = curr + 0 := rfl
        omega)
      simp only [e3, Except.bind]
      obtain ⟨st4, e4, hce4, hl4⟩ := stepPX_fit isdir none st3 (by
        have h0 : (⟨emptyFlatBag, emptyFlatBag, false, curr + 0, 0,
          false⟩ : NewSt).thisLen = curr + 0 := rfl
        omega)
      simp only [e4, Except.bind]
      have e5 : stepSL none st4 = .ok st4 := rfl
      simp only [e5, Except.bind]
      obtain ⟨st6, e6, hce6, hl6⟩ := stepTF_fit st4 (by
        have h0 : (⟨emptyFlatBag, emptyFlatBag, false, curr + 0, 0,
          false⟩ : NewSt).thisLen = curr + 0 := rfl
        omega)
      simp only [e6, Except.bind]
      obtain ⟨st7, e7, hce7, hl7⟩ := stepCL_fit c1 st6 (by
        have h0 : (⟨emptyFlatBag, emptyFlatBag, false, curr + 0, 0,
          false⟩ : NewSt).thisLen = curr + 0 := rfl
        omega)
      simp only [e7, Except.bind]
      obtain ⟨st8, e8, hce8, hl8⟩ := stepRE_fit c2 st7 (by
        have h0 : (⟨emptyFlatBag, emptyFlatBag, false, curr + 0, 0,
          false⟩ : NewSt).thisLen = curr + 0 := rfl
        omega)
      simp only [e8, Except.bind]
      obtain ⟨st9, e9, hce9, hl9⟩ := stepPL_fit c3 st8 (by
        have h0 : (⟨emptyFlatBag, emptyFlatBag, false, curr + 0, 0,
          false⟩ : NewSt).thisLen = curr + 0 := rfl
        omega)
      simp only [e9, Except.bind]
      obtain ⟨st10, e10, hce10, hl10⟩ := stepER_fit root st9 (by
        have h0 : (⟨emptyFlatBag, emptyFlatBag, false, curr + 0, 0,
          false⟩ : NewSt).thisLen = curr + 0 := rfl
        omega)
      simp only [e10, Except.bind]
      refine ⟨_, rfl, ?_, ?_⟩
      · show st10.thisLen ≤ 254
        have h0 : (⟨emptyFlatBag, emptyFlatBag, false, curr + 0, 0,
          false⟩ : NewSt).thisLen = curr + 0 := rfl
        omega
      · show (none : Option RRCERecord).isSome ↔ _
        simp only [Option.isSome]
        exact iff_of_false (by simp) h254

    | some name =>
      dsimp only at h254 ⊢
      obtain ⟨st1, e1, hce1, hl1⟩ :=
        stepSP_fit root ⟨emptyFlatBag, emptyFlatBag, false, curr + 0, 0, false⟩ (by
          show curr + 0 + (if root then RRSPRecord.length else 0) ≤ 254
          omega)
      simp only [e1, Except.bind]
      obtain ⟨st2, e2, hce2, hl2⟩ := stepRR_fit rr_version st1 (by
        have h0 : (⟨emptyFlatBag, emptyFlatBag, false, curr + 0, 0,
          false⟩ : NewSt).thisLen = curr + 0 := rfl
        omega)
      simp only [e2, Except.bind]
      obtain ⟨st3, e3, hce3, hl3⟩ := stepNM_fit (some name) st2 (RRNMRecord.length name) rfl (by
        have h0 : (⟨emptyFlatBag, emptyFlatBag, false, curr + 0, 0,
          false⟩ : NewSt).thisLen = curr + 0 := rfl
        omega)
      simp only [e3, Except.bind]
      obtain ⟨st4, e4, hce4, hl4⟩ := stepPX_fit isdir none st3 (by
        have h0 : (⟨emptyFlatBag, emptyFlatBag, false, curr + 0, 0,
          false⟩ : NewSt).thisLen = curr + 0 := rfl
        omega)
      simp only [e4, Except.bind]
      have e5 : stepSL none st4 = .ok st4 := rfl
      simp only [e5, Except.bind]
      obtain ⟨st6, e6, hce6, hl6⟩ := stepTF_fit st4 (by
        have h0 : (⟨emptyFlatBag, emptyFlatBag, false, curr + 0, 0,
          false⟩ : NewSt).thisLen = curr + 0 := rfl
        omega)
      simp only [e6, Except.bind]
      obtain ⟨st7, e7, hce7, hl7⟩ := stepCL_fit c1 st6 (by
        have h0 : (⟨emptyFlatBag, emptyFlatBag, false, curr + 0, 0,
          false⟩ : NewSt).thisLen = curr + 0 := rfl
        omega)
      simp only [e7, Except.bind]
      obtain ⟨st8, e8, hce8, hl8⟩ := stepRE_fit c2 st7 (by
        have h0 : (⟨emptyFlatBag, emptyFlatBag, false, curr + 0, 0,
          false⟩ : NewSt).thisLen = curr + 0 := rfl
        omega)
      simp only [e8, Except.bind]
      obtain ⟨st9, e9, hce9, hl9⟩ := stepPL_fit c3 st8 (by
        have h0 : (⟨emptyFlatBag, emptyFlatBag, false, curr + 0, 0,
          false⟩ : NewSt).thisLen = curr + 0 := rfl
        omega)
      simp only [e9, Except.bind]
      obtain ⟨st10, e10, hce10, hl10⟩ := stepER_fit root st9 (by
        have h0 : (⟨emptyFlatBag, emptyFlatBag, false, curr + 0, 0,
          false⟩ : NewSt).thisLen = curr + 0 := rfl
        omega)
      simp only [e10, Except.bind]
      refine ⟨_, rfl, ?_, ?_⟩
      · show st10.thisLen ≤ 254
        have h0 : (⟨emptyFlatBag, emptyFlatBag, false, curr + 0, 0,
          false⟩ : NewSt).thisLen = curr + 0 := rfl
        omega
      · show (none : Option RRCERecord).isSome ↔ _
        simp only [Option.isSome]
        exact iff_of_false (by simp) h254

/-- C1 counterexample: at curr_dr_len 230 (within the claimed domain, which
allows up to 254) with no name and no symlink, the 28 byte CE pre-allocation
makes this_dr_len 258 before any padding, violating the 254 byte budget the
claim asserts for every input. -/
theorem C1_counterexample :
    Except.map NewResult.prePadLen
      (RockRidge.new false none false none RRVersion.v112 false false false 230)
      = Except.ok 258 ∧ 254 < 258 := by
  exact ⟨by decide, by decide⟩

/-- C1 witness: a concrete in-domain input for the amended claim. -/
theorem C1_witness :
    ∃ r : NewResult,
      RockRidge.new false (some [102, 111, 111]) false none RRVersion.v109
        false false false 34 = .ok r ∧
      r.prePadLen ≤ 254 ∧
      (r.entry.ce_record.isSome ↔ 254 < r.estimate) :=
  C1_layout_budget false (some [102, 111, 111]) false RRVersion.v109
    false false false 34 (by decide)

theorem pySplit_ne_nil (p : List Nat) : pySplit p ≠ [] := by
  cases p with
  | nil => simp [pySplit]
  | cons c rest =>
    unfold pySplit
    cases h : pySplit rest with
    | nil => simp
    | cons hh tt =>
      by_cases hc : c = 47
      · simp [hc]
      · simp [hc]

theorem pySplit_no_slash (p : List Nat) : ∀ c ∈ pySplit p, 47 ∉ c := by
  induction p with
  | nil => simp [pySplit]
  | cons c rest ih =>
    unfold pySplit
    cases h : pySplit rest with
    | nil => exact absurd h (pySplit_ne_nil rest)
    | cons hh tt =>
      rw [h] at ih
      dsimp only
      by_cases hc : c = 47
      · rw [if_pos hc]
        intro x hx
        rw [List.mem_cons] at hx
        rcases hx with hx | hx
        · subst hx
          simp
        · exact ih x hx
      · rw [if_neg hc]
        intro x hx
        rw [List.mem_cons] at hx
        rcases hx with hx | hx
        · subst hx
          intro hmem
          rw [List.mem_cons] at hmem
          rcases hmem with h47 | h47
          · exact hc h47.symm
          · exact ih hh (by simp) h47
        · exact ih x (by simp [hx])

theorem pySplit_single (c : List Nat) (h : 47 ∉ c) : pySplit c = [c] := by
  induction c with
  | nil => rfl
  | cons x rest ih =>
    have hx : x ≠ 47 := by
      intro hh
      exact h (by simp [hh])
    have hr : pySplit rest = [rest] := ih (fun hm => h (by simp [hm]))
    unfold pySplit
    rw [hr]
    simp [hx]

theorem slashTerm_pySplit (p : List Nat) : slashTerm (pySplit p) = p ++ [47] := by
  induction p with
  | nil => rfl
  | cons c rest ih =>
    unfold pySplit
    cases h : pySplit rest with
    | nil => exact absurd h (pySplit_ne_nil rest)
    | cons hh tt =>
      rw [h] at ih
      have hhns : 47 ∉ hh := pySplit_no_slash rest hh (by rw [h]; simp)
      have hhne : hh ≠ [47] := by
        intro hhh
        exact hhns (by simp [hhh])
      dsimp only
      by_cases hc : c = 47
      · subst hc
        rw [if_pos rfl]
        show slashTerm ([] :: hh :: tt) = 47 :: (rest ++ [47])
        rw [show ([] :: hh :: tt) = [[]] ++ (hh :: tt) from rfl, slashTerm_append, ih]
        simp [slashTerm]
      · rw [if_neg hc]
        have hcne : c :: hh ≠ [47] := by
          intro hhh
          cases hhh
          exact hc rfl
        show slashTerm ((c :: hh) :: tt) = c :: (rest ++ [47])
        rw [show ((c :: hh) :: tt) = [c :: hh] ++ tt from rfl, slashTerm_append]
        rw [show (hh :: tt) = [hh] ++ tt from rfl, slashTerm_append] at ih
        simp only [slashTerm, List.map_cons, List.map_nil, List.flatten_cons, List.flatten_nil,
          List.append_nil] at ih ⊢
        rw [if_neg hcne]
        rw [if_neg hhne] at ih
        rw [← ih]
        simp

theorem slStep_branch2_mono (hasCE : Bool) (s : SLSt) (comp : List Nat) (s1 : SLSt)
    (h : slStep hasCE s comp = .ok s1) (hb : s.branch2 = true) : s1.branch2 = true := by
  unfold slStep at h
  dsimp only at h
  by_cases h1 : RRSLRecord.length s.cur + 2 + comp.length < 255
  · rw [if_pos h1, if_neg (by omega)] at h
    cases h
    exact hb
  · rw [if_neg h1] at h
    by_cases h2 : RRSLRecord.length s.cur + 2 + 1 < 255
    · rw [if_pos h2] at h
      by_cases h3 : RRSLRecord.length s.cur + 2
          + (comp.take (255 - RRSLRecord.length s.cur - 2)).length > 255
      · rw [if_pos h3] at h
        cases h
      · rw [if_neg h3] at h
        by_cases h4 : hasCE = true
        · rw [if_pos h4] at h
          cases h
          rfl
        · rw [if_neg h4] at h
          cases h
    · rw [if_neg h2] at h
      by_cases h4 : hasCE = true
      · rw [if_pos h4] at h
        cases h
        exact hb
      · rw [if_neg h4] at h
        cases h

theorem slStep_flatten (hasCE : Bool) (s : SLSt) (comp : List Nat) (s1 : SLSt)
    (h : slStep hasCE s comp = .ok s1) (hns : 47 ∉ comp) (hb1 : s1.branch2 = false) :
    (s1.done.map RRSLRecord.symlink_components).flatten ++ s1.cur
      = ((s.done.map RRSLRecord.symlink_components).flatten ++ s.cur) ++ [comp] ∧
    s1.branch2 = s.branch2 := by
  unfold slStep at h
  dsimp only at h
  by_cases h1 : RRSLRecord.length s.cur + 2 + comp.length < 255
  · rw [if_pos h1, if_neg (by omega)] at h
    cases h
    exact ⟨by simp, rfl⟩
  · rw [if_neg h1] at h
    by_cases h2 : RRSLRecord.length s.cur + 2 + 1 < 255
    · rw [if_pos h2] at h
      by_cases h3 : RRSLRecord.length s.cur + 2
          + (comp.take (255 - RRSLRecord.length s.cur - 2)).length > 255
      · rw [if_pos h3] at h
        cases h
      · rw [if_neg h3] at h
        by_cases h4 : hasCE = true
        · rw [if_pos h4] at h
          cases h
          simp at hb1
        · rw [if_neg h4] at h
          cases h
    · rw [if_neg h2] at h
      by_cases h4 : hasCE = true
      · rw [if_pos h4] at h
        cases h
        exact ⟨by simp [pySplit_single comp hns], rfl⟩
      · rw [if_neg h4] at h
        cases h

theorem slStep_false_done (s : SLSt) (comp : List Nat) (s1 : SLSt)
    (h : slStep false s comp = .ok s1) : s1.done = s.done := by
  unfold slStep at h
  dsimp only at h
  by_cases h1 : RRSLRecord.length s.cur + 2 + comp.length < 255
  · rw [if_pos h1, if_neg (by omega)] at h
    cases h
    rfl
  · rw [if_neg h1] at h
    by_cases h2 : RRSLRecord.length s.cur + 2 + 1 < 255
    · rw [if_pos h2] at h
      by_cases h3 : RRSLRecord.length s.cur + 2
          + (comp.take (255 - RRSLRecord.length s.cur - 2)).length > 255
      · rw [if_pos h3] at h
        cases h
      · rw [if_neg h3] at h
        cases h
    · rw [if_neg h2] at h
      cases h

theorem slRun_branch2_mono (hasCE : Bool) :
    ∀ (comps : List (List Nat)) (s fin : SLSt),
      slRun hasCE s comps = .ok fin → s.branch2 = true → fin.branch2 = true := by
  intro comps
  induction comps with
  | nil =>
    intro s fin h hb
    cases h
    exact hb
  | cons comp comps ih =>
    intro s fin h hb
    unfold slRun at h
    cases hstep : slStep hasCE s comp with
    | error e => rw [hstep] at h; cases h
    | ok s1 =>
      rw [hstep] at h
      exact ih s1 fin h (slStep_branch2_mono hasCE s comp s1 hstep hb)

theorem slRun_flatten (hasCE : Bool) :
    ∀ (comps : List (List Nat)) (s fin : SLSt),
      (∀ c ∈ comps, 47 ∉ c) →
      slRun hasCE s comps = .ok fin → fin.branch2 = false →
      (fin.done.map RRSLRecord.symlink_components).flatten ++ fin.cur
        = ((s.done.map RRSLRecord.symlink_components).flatten ++ s.cur) ++ comps := by
  intro comps
  induction comps with
  | nil =>
    intro s fin hns h hb
    cases h
    simp
  | cons comp comps ih =>
    intro s fin hns h hb
    unfold slRun at h
    cases hstep : slStep hasCE s comp with
    | error e => rw [hstep] at h; cases h
    | ok s1 =>
      rw [hstep] at h
      have hb1 : s1.branch2 = false := by
        cases hq : s1.branch2 with
        | false => rfl
        | true => rw [slRun_branch2_mono hasCE comps s1 fin h hq] at hb; cases hb
      obtain ⟨hf, _⟩ := slStep_flatten hasCE s comp s1 hstep (hns comp (by simp)) hb1
      rw [ih s1 fin (fun c hc => hns c (by simp [hc])) h hb, hf]
      simp

theorem slRun_false_done :
    ∀ (comps : List (List Nat)) (s fin : SLSt),
      slRun false s comps = .ok fin → fin.done = s.done := by
  intro comps
  induction comps with
  | nil =>
    intro s fin h
    cases h
    rfl
  | cons comp comps ih =>
    intro s fin h
    unfold slRun at h
    cases hstep : slStep false s comp with
    | error e => rw [hstep] at h; cases h
    | ok s1 =>
      rw [hstep] at h
      rw [ih s1 fin h, slStep_false_done s comp s1 hstep]

theorem placeRecord_pres (st : NewSt) (l : Nat) (setI setC : RRFlatBag → RRFlatBag) (st' : NewSt)
    (h : placeRecord st l setI setC = .ok st') :
    st' = { st with cont := setC st.cont, contLen := st.contLen + l } ∨
    st' = { st with bag := setI st.bag, thisLen := st.thisLen + l } := by
  unfold placeRecord at h
  by_cases h1 : st.thisLen + l > 254
  · rw [if_pos h1] at h
    by_cases h2 : st.hasCE = true
    · rw [if_pos h2] at h
      cases h
      exact Or.inl rfl
    · rw [if_neg h2] at h
      cases h
  · rw [if_neg h1] at h
    cases h
    exact Or.inr rfl

theorem stepSP_pres (root : Bool) (st st' : NewSt) (h : stepSP root st = .ok st') :
    st'.hasCE = st.hasCE := by
  cases root with
  | false => cases h; rfl
  | true =>
    unfold stepSP at h
    rw [if_pos rfl] at h
    rcases placeRecord_pres st _ _ _ st' h with hp | hp
    · rw [hp]
    · rw [hp]

theorem stepRR_pres (v : RRVersion) (st st' : NewSt) (h : stepRR v st = .ok st') :
    st'.hasCE = st.hasCE := by
  cases v with
  | v112 => cases h; rfl
  | v109 =>
    unfold stepRR at h
    rw [if_pos rfl] at h
    rcases placeRecord_pres st _ _ _ st' h with hp | hp
    · rw [hp]
    · rw [hp]

theorem stepNM_pres (rr_name : Option (List Nat)) (st st' : NewSt)
    (h : stepNM rr_name st = .ok st') : st'.hasCE = st.hasCE := by
  cases rr_name with
  | none => cases h; rfl
  | some name =>
    unfold stepNM at h
    dsimp only at h
    by_cases h1 : st.thisLen + RRNMRecord.length name > 254
    · rw [if_pos h1] at h
      by_cases h2 : st.hasCE = true
      · rw [if_pos h2] at h
        cases h
        rfl
      · rw [if_neg h2] at h
        cases h
    · rw [if_neg h1] at h
      cases h
      rfl

theorem stepPX_pres (isdir : Bool) (sp : Option (List Nat)) (st st' : NewSt)
    (h : stepPX isdir sp st = .ok st') : st'.hasCE = st.hasCE := by
  unfold stepPX at h
  cases hp : placeRecord st (RRPXRecord.length .v109)
      (fun b => { b with px_record := some (RRPXRecord.newRec isdir sp) })
      (fun b => { b with px_record := some (RRPXRecord.newRec isdir sp) }) with
  | error e => rw [hp] at h; cases h
  | ok st1 =>
    rw [hp] at h
    cases h
    rcases placeRecord_pres st _ _ _ st1 hp with hq | hq
    · rw [show (appendRR st1 0).hasCE = st1.hasCE from rfl, hq]
    · rw [show (appendRR st1 0).hasCE = st1.hasCE from rfl, hq]

theorem stepTF_pres (st st' : NewSt) (h : stepTF st = .ok st') :
    st'.bag.sl_records = st.bag.sl_records ∧ st'.cont.sl_records = st.cont.sl_records ∧
    st'.slBranch2 = st.slBranch2 ∧ st'.hasCE = st.hasCE := by
  unfold stepTF at h
  cases hp : placeRecord st (RRTFRecord.length TF_FLAGS)
      (fun b => { b with tf_record := some (RRTFRecord.new TF_FLAGS) })
      (fun b => { b with tf_record := some (RRTFRecord.new TF_FLAGS) }) with
  | error e => rw [hp] at h; cases h
  | ok st1 =>
    rw [hp] at h
    cases h
    rcases placeRecord_pres st _ _ _ st1 hp with hq | hq
    · rw [hq]
      exact ⟨rfl, rfl, rfl, rfl⟩
    · rw [hq]
      exact ⟨rfl, rfl, rfl, rfl⟩

theorem stepCL_pres (b : Bool) (st st' : NewSt) (h : stepCL b st = .ok st') :
    st'.bag.sl_records = st.bag.sl_records ∧ st'.cont.sl_records = st.cont.sl_records ∧
    st'.slBranch2 = st.slBranch2 ∧ st'.hasCE = st.hasCE := by
  cases b with
  | false =>
    cases h
    exact ⟨rfl, rfl, rfl, rfl⟩
  | true =>
    unfold stepCL at h
    rw [if_pos rfl] at h
    rcases placeRecord_pres st _ _ _ st' h with hp | hp
    · rw [hp]
      exact ⟨rfl, rfl, rfl, rfl⟩
    · rw [hp]
      exact ⟨rfl, rfl, rfl, rfl⟩

theorem stepRE_pres (b : Bool) (st st' : NewSt) (h : stepRE b st = .ok st') :
    st'.bag.sl_records = st.bag.sl_records ∧ st'.cont.sl_records = st.cont.sl_records ∧
    st'.slBranch2 = st.slBranch2 ∧ st'.hasCE = st.hasCE := by
  cases b with
  | false =>
    cases h
    exact ⟨rfl, rfl, rfl, rfl⟩
  | true =>
    unfold stepRE at h
    rw [if_pos rfl] at h
    rcases placeRecord_pres st _ _ _ st' h with hp | hp
    · rw [hp]
      exact ⟨rfl, rfl, rfl, rfl⟩
    · rw [hp]
      exact ⟨rfl, rfl, rfl, rfl⟩

theorem stepPL_pres (b : Bool) (st st' : NewSt) (h : stepPL b st = .ok st') :
    st'.bag.sl_records = st.bag.sl_records ∧ st'.cont.sl_records = st.cont.sl_records ∧
    st'.slBranch2 = st.slBranch2 ∧ st'.hasCE = st.hasCE := by
  cases b with
  | false =>
    cases h
    exact ⟨rfl, rfl, rfl, rfl⟩
  | true =>
    unfold stepPL at h
    rw [if_pos rfl] at h
    rcases placeRecord_pres st _ _ _ st' h with hp | hp
    · rw [hp]
      exact ⟨rfl, rfl, rfl, rfl⟩
    · rw [hp]
      exact ⟨rfl, rfl, rfl, rfl⟩

theorem stepER_pres (root : Bool) (st st' : NewSt) (h : stepER root st = .ok st') :
    st'.bag.sl_records = st.bag.sl_records ∧ st'.cont.sl_records = st.cont.sl_records ∧
    st'.slBranch2 = st.slBranch2 ∧ st'.hasCE = st.hasCE := by
  cases root with
  | false =>
    cases h
    exact ⟨rfl, rfl, rfl, rfl⟩
  | true =>
    unfold stepER at h
    rw [if_pos rfl] at h
    rcases placeRecord_pres st _ _ _ st' h with hp | hp
    · rw [hp]
      exact ⟨rfl, rfl, rfl, rfl⟩
    · rw [hp]
      exact ⟨rfl, rfl, rfl, rfl⟩


theorem bindOk_inv {α β : Type} (x : Except PyErr α) (f : α → Except PyErr β) (r : β)
    (h : Except.bind x f = .ok r) : ∃ a, x = .ok a ∧ f a = .ok r := by
  cases x with
  | error e => exact absurd h (by simp [Except.bind])
  | ok a => exact ⟨a, rfl, h⟩

theorem stepSL_inv (p : List Nat) (st st' : NewSt) (h : stepSL (some p) st = .ok st') :
    ∃ fin : SLSt,
      slRun st.hasCE
        ⟨[], [], decide (st.thisLen + 5 + 2 + 1 < 254),
         if st.thisLen + 5 + 2 + 1 < 254 then st.thisLen + 5 else st.thisLen,
         if st.thisLen + 5 + 2 + 1 < 254 then st.contLen else st.contLen + 5,
         false⟩ (pySplit p) = .ok fin ∧
      st'.bag.sl_records = (if st.thisLen + 5 + 2 + 1 < 254
        then (fin.done ++ [(⟨fin.cur, 0⟩ : RRSLRecord)]).take 1 else []) ∧
      st'.cont.sl_records = (if st.thisLen + 5 + 2 + 1 < 254
        then (fin.done ++ [(⟨fin.cur, 0⟩ : RRSLRecord)]).drop 1 else (fin.done ++ [(⟨fin.cur, 0⟩ : RRSLRecord)])) ∧
      st'.slBranch2 = fin.branch2 ∧
      st'.hasCE = st.hasCE := by
  unfold stepSL at h
  dsimp only at h
  by_cases hguard : ¬(st.thisLen + 5 + 2 + 1 < 254) ∧ ¬st.hasCE = true
  · rw [if_pos hguard] at h
    cases h
  · rw [if_neg hguard] at h
    obtain ⟨fin, hrun, h⟩ := bindOk_inv _ _ _ h
    cases h
    exact ⟨fin, hrun, rfl, rfl, rfl, rfl⟩

/-- C4 (corrected): the split path round trips through symlink_path exactly
when the mid component split branch of the SL loop never fires (slBranch2
false), the placement left an SL record inline, any continuation entry also
holds one, and every stored record is nonempty with a per record
reconstruction other than a bare slash.  The original claim over all long
paths is false: a mid component split stores the two halves as separate
components with no continue flag, so the reconstruction joins them with a
spurious slash (see C4_counterexample). -/
theorem C4_symlink_split (root : Bool) (rr_name : Option (List Nat)) (isdir : Bool)
    (rr_version : RRVersion) (c1 c2 c3 : Bool) (curr : Nat) (p : List Nat) (r : NewResult)
    (hok : RockRidge.new root rr_name isdir (some p) rr_version c1 c2 c3 curr = .ok r)
    (hb2 : r.slBranch2 = false)
    (hprim : r.entry.bag.sl_records ≠ [])
    (hcont : ¬(r.entry.ce_record.isSome ∧ contSLRecords r.entry = []))
    (hwf : ∀ rec ∈ r.entry.bag.sl_records ++ contSLRecords r.entry,
      rec.symlink_components ≠ [] ∧ RRSLRecord.str rec ≠ [47]) :
    r.entry.symlink_path = .ok p := by
  unfold RockRidge.new at hok
  dsimp only at hok
  obtain ⟨st1, e1, hok⟩ := bindOk_inv _ _ _ hok
  obtain ⟨st2, e2, hok⟩ := bindOk_inv _ _ _ hok
  obtain ⟨st3, e3, hok⟩ := bindOk_inv _ _ _ hok
  obtain ⟨st4, e4, hok⟩ := bindOk_inv _ _ _ hok
  obtain ⟨st5, e5, hok⟩ := bindOk_inv _ _ _ hok
  obtain ⟨st6, e6, hok⟩ := bindOk_inv _ _ _ hok
  obtain ⟨st7, e7, hok⟩ := bindOk_inv _ _ _ hok
  obtain ⟨st8, e8, hok⟩ := bindOk_inv _ _ _ hok
  obtain ⟨st9, e9, hok⟩ := bindOk_inv _ _ _ hok
  obtain ⟨st10, e10, hok⟩ := bindOk_inv _ _ _ hok
  rw [Except.ok.injEq] at hok
  subst hok
  dsimp only at hb2 hprim hcont hwf ⊢
  obtain ⟨sl6, sc6, sb6, sh6⟩ := stepTF_pres _ _ e6
  obtain ⟨sl7, sc7, sb7, sh7⟩ := stepCL_pres c1 _ _ e7
  obtain ⟨sl8, sc8, sb8, sh8⟩ := stepRE_pres c2 _ _ e8
  obtain ⟨sl9, sc9, sb9, sh9⟩ := stepPL_pres c3 _ _ e9
  obtain ⟨sl10, sc10, sb10, sh10⟩ := stepER_pres root _ _ e10
  have hq1 := stepSP_pres root _ _ e1
  have hq2 := stepRR_pres rr_version _ _ e2
  have hq3 := stepNM_pres rr_name _ _ e3
  have hq4 := stepPX_pres isdir (some p) _ _ e4
  dsimp only at hq1
  obtain ⟨fin, hrun, hbag5, hcont5, hbr5, hce5⟩ := stepSL_inv p _ _ e5
  have hceAll := (hq4.trans (hq3.trans (hq2.trans hq1)))
  have hfinb2 : fin.branch2 = false := by
    rw [← hbr5, ← sb6, ← sb7, ← sb8, ← sb9, ← sb10]
    exact hb2
  have hsl : st10.bag.sl_records = st5.bag.sl_records :=
    sl10.trans (sl9.trans (sl8.trans (sl7.trans sl6)))
  have hsc : st10.cont.sl_records = st5.cont.sl_records :=
    sc10.trans (sc9.trans (sc8.trans (sc7.trans sc6)))
  have hflat := slRun_flatten st4.hasCE (pySplit p) _ fin (pySplit_no_slash p) hrun hfinb2
  simp only [List.map_nil, List.flatten_nil, List.nil_append] at hflat
  cases hq : st4.hasCE with
  | false =>
    rw [hq] at hceAll hrun
    have hnot := of_decide_eq_false hceAll.symm
    rw [if_neg hnot] at hcont hwf ⊢
    dsimp only [contSLRecords] at hcont hwf ⊢
    have hdone : fin.done = [] := by
      have h0 := slRun_false_done (pySplit p) _ fin hrun
      simpa using h0
    rw [hdone] at hflat hbag5
    simp only [List.map_nil, List.flatten_nil, List.nil_append] at hflat
    by_cases hfi : st4.thisLen + 5 + 2 + 1 < 254
    · rw [if_pos hfi] at hbag5
      simp only [List.nil_append, List.take_succ_cons, List.take_zero] at hbag5
      unfold RockRidgeEntry.symlink_path
      dsimp only [contSLRecords]
      rw [hsl, hbag5] at hprim hwf ⊢
      rw [if_neg (by simp)]
      rw [List.append_nil]
      rw [join_records _ (by simpa using hwf)]
      simp only [List.map_cons, List.map_nil, List.flatten_cons, List.flatten_nil,
        List.append_nil]
      rw [hflat, slashTerm_pySplit]
      simp
    · rw [if_neg hfi] at hbag5
      rw [hsl, hbag5] at hprim
      exact absurd rfl hprim
  | true =>
    rw [hq] at hceAll hrun
    have hpos := of_decide_eq_true hceAll.symm
    rw [if_pos hpos] at hcont hwf ⊢
    dsimp only [contSLRecords] at hcont hwf ⊢
    by_cases hfi : st4.thisLen + 5 + 2 + 1 < 254
    · rw [if_pos hfi] at hbag5 hcont5
      unfold RockRidgeEntry.symlink_path
      dsimp only [contSLRecords]
      rw [hsl, hbag5] at hprim hwf ⊢
      rw [hsc, hcont5] at hcont hwf ⊢
      rw [if_neg (fun hor => hor.elim (fun h => hprim h) (fun h => hcont h))]
      rw [List.take_append_drop] at hwf ⊢
      rw [join_records _ hwf]
      simp only [List.map_append, List.flatten_append, List.map_cons, List.map_nil,
        List.flatten_cons, List.flatten_nil, List.append_nil]
      rw [hflat, slashTerm_pySplit]
      simp
    · rw [if_neg hfi] at hbag5
      rw [hsl, hbag5] at hprim
      exact absurd rfl hprim


/-- C4 counterexample: a 301 byte path whose first component fills the SL
record mid component; the reconstruction is 302 bytes, the two halves of the
split component having been rejoined with a spurious slash. -/
theorem C4_counterexample :
    Except.map NewResult.slBranch2
      (RockRidge.new false none false
        (some (List.replicate 200 97 ++ [47] ++ List.replicate 100 98))
        RRVersion.v109 false false false 34) = Except.ok true ∧
    Except.map List.length
      (Except.bind
        (RockRidge.new false none false
          (some (List.replicate 200 97 ++ [47] ++ List.replicate 100 98))
          RRVersion.v109 false false false 34)
        (fun r => r.entry.symlink_path)) = Except.ok 302 ∧
    (List.replicate 200 97 ++ [47] ++ List.replicate 100 98).length = 301 := by
  exact ⟨by decide, by decide, by decide⟩

/-- C4 witness: a 256 byte path split across two SL records at a component
boundary round trips exactly. -/
theorem C4_witness :
    ∃ r : NewResult,
      RockRidge.new false none false
        (some (List.replicate 245 97 ++ [47] ++ List.replicate 10 98))
        RRVersion.v109 false false false 34 = .ok r ∧
      r.entry.symlink_path = .ok (List.replicate 245 97 ++ [47] ++ List.replicate 10 98) :=
  ⟨_, rfl, C4_symlink_split false none false RRVersion.v109 false false false 34
    (List.replicate 245 97 ++ [47] ++ List.replicate 10 98) _ rfl
    (by decide) (by decide) (by decide) (by decide)⟩

end PyIso
